import Mathlib

/-!
Verification of the webcity procedural urban-fabric generator
(`simcity-web-starter`): a shallow embedding in Lean 4 of the road-network
welder (`IntersectionHandler`), the road graph (`RoadNetwork` with its
`SpatialGrid` index), the parcel subdivider and block manager
(`ParcelSubdivider`, `CityBlockManager`), the massing generator
(`SplitGrammar`, `BuildingManager`), and the procgen worker's
request-processing loop.

Modelling conventions, used consistently below:

* JavaScript numbers are embedded as exact rationals (`ℚ`).  Every
  comparison the source makes between a Euclidean distance
  (`Math.sqrt(dx*dx+dy*dy)`) and a nonnegative constant `c` is embedded as
  the exactly equivalent comparison between the squared distance and `c^2`
  (`Real.sqrt` is strictly monotone on nonnegatives), so those guards need
  no square-root function.  Where the source uses the *value* of a square
  root or of `Math.atan2` (cached edge lengths, frontage sums, direction
  normalisation, stored mean angles), the embedding threads an explicit
  oracle (`MathOracle`) for those functions; theorems quantify over the
  oracle, and concrete evaluations instantiate it with `defaultOracle`,
  whose square root is exact on every input actually consulted in those
  evaluations (they are all perfect squares of rationals) and whose
  `atan2` is consulted only for values that are stored but never read back
  by any modelled computation or compared property.
* JavaScript `Map` is embedded as an insertion-ordered association list
  (`JMap`): `set` updates an existing key in place, otherwise appends;
  `delete` removes; iteration follows list order — exactly the ECMAScript
  iteration-order contract.
* `Array.prototype.sort` with the comparator `(a, b) => distA - distB`
  (ES2019 stable sort, ascending by distance) is embedded as
  `List.insertionSort` by the squared-distance key, which is stable and
  ascending by the same key.
* `mulberry32` is embedded exactly: the float64 state `a += 0x6D2B79F5`
  stays integral (far below 2^53 in every run considered), and all 32-bit
  coercions (`ToInt32`/`ToUint32`, `Math.imul`) are bit-identical to
  arithmetic `% 2^32` on naturals.
-/

namespace WebCity

attribute [local semireducible] Rat.mul Rat.add Rat.sub Rat.inv

/-- Planar point with exact rational coordinates (source `Vec2`). -/
structure Vec2 where
  x : ℚ
  y : ℚ
deriving DecidableEq, Repr

/-- Squared Euclidean distance.  The source computes
`Math.sqrt(dx*dx + dy*dy)` and only compares it with nonnegative
thresholds at the places this definition is used, so the squared form is
an exact embedding of those comparisons. -/
def distSq (a b : Vec2) : ℚ :=
  (b.x - a.x) * (b.x - a.x) + (b.y - a.y) * (b.y - a.y)

/-- JavaScript `Math.round` on an exact rational: round half toward
positive infinity. -/
def jsRound (q : ℚ) : ℤ :=
  ⌊q + 1 / 2⌋

/-- Oracle for the real-valued library functions whose *values* the source
stores or feeds into further arithmetic: `Math.sqrt`, `Math.atan2`,
`Math.PI`.  Theorems quantify over the oracle; concrete evaluations use
`defaultOracle`. -/
structure MathOracle where
  sqrtQ : ℚ → ℚ
  atan2Q : ℚ → ℚ → ℚ
  piQ : ℚ

/-- Fuel-driven bisection computing the integer square root
`⌊√n⌋` (the fuel of 4000 covers every natural number below `2^3999`). -/
def sqrtGo : ℕ → ℕ → ℕ → ℕ → ℕ
  | 0, _, lo, _ => lo
  | f + 1, n, lo, hi =>
    if hi ≤ lo + 1 then lo
    else
      let mid := (lo + hi) / 2
      if mid * mid ≤ n then sqrtGo f n mid hi else sqrtGo f n lo mid

/-- Integer square root by bisection. -/
def intSqrt (n : ℕ) : ℕ :=
  sqrtGo 4000 n 0 (n + 1)

/-- Exact rational square root helper: the integer square roots of
numerator and denominator.  It agrees with the real square root precisely
when both are perfect squares, which holds for every input consulted in
the concrete evaluations below. -/
def ratSqrt (q : ℚ) : ℚ :=
  (intSqrt q.num.toNat : ℚ) / (intSqrt q.den : ℚ)

/-- Concrete oracle used by the closed evaluations: exact square root on
perfect squares; `atan2` stubbed to zero (its results are stored in fields
no modelled computation or compared property ever reads back); `piQ` set
to a rational approximation (likewise never consulted on any evaluated
path). -/
def defaultOracle : MathOracle where
  sqrtQ := ratSqrt
  atan2Q := fun _ _ => 0
  piQ := 3141592653589793 / 1000000000000000

/-- Insertion-ordered association list embedding a JavaScript `Map`. -/
abbrev JMap (α β : Type) : Type :=
  List (α × β)

/-- Lookup (JavaScript `Map.get`). -/
def jget {α β : Type} [DecidableEq α] (m : JMap α β) (k : α) : Option β :=
  match m with
  | [] => none
  | (k₀, v₀) :: rest => if k₀ = k then some v₀ else jget rest k

/-- JavaScript `Map.set`: update the value in place if the key is present
(keeping its iteration position), otherwise append at the end. -/
def jset {α β : Type} [DecidableEq α] (m : JMap α β) (k : α) (v : β) : JMap α β :=
  match m with
  | [] => [(k, v)]
  | (k₀, v₀) :: rest => if k₀ = k then (k₀, v) :: rest else (k₀, v₀) :: jset rest k v

/-- JavaScript `Map.delete`. -/
def jdel {α β : Type} [DecidableEq α] (m : JMap α β) (k : α) : JMap α β :=
  match m with
  | [] => []
  | (k₀, v₀) :: rest => if k₀ = k then rest else (k₀, v₀) :: jdel rest k

/-- First 2^32 as a natural number, for the 32-bit coercions of
`mulberry32`. -/
def pow32 : ℕ := 4294967296

/-- One step of `mulberry32` (source `src/lib/utils`, identical copy in
`src/test-road-generation.js`): advances the float64 state by `0x6D2B79F5`
and produces a rational in `[0, 1)` with denominator 2^32.  All JavaScript
32-bit coercions are embedded as `% 2^32` / bitwise operations on
naturals, which match the two's-complement bit patterns exactly. -/
def mulberryStep (a : ℕ) : ℕ × ℚ :=
  let a' := a + 1831565813
  let t1 := a' % pow32
  let t2 := ((t1 ^^^ (t1 >>> 15)) * (t1 ||| 1)) % pow32
  let t3 := t2 ^^^ ((t2 + ((t2 ^^^ (t2 >>> 7)) * (t2 ||| 61)) % pow32) % pow32)
  let r := t3 ^^^ (t3 >>> 14)
  (a', (r : ℚ) / (pow32 : ℚ))

/-! ## Intersection welder (`IntersectionHandler`, source lines 34–615)

Constants: `SNAP_THRESHOLD = 10` (squared: 100),
`INTERSECTION_THRESHOLD = 2` (squared: 4). -/

/-- Welder road segment (source `RoadSegment` of the handler): fractional
sub-ids (`id + index * 0.001`) make the id rational. -/
structure WSeg where
  id : ℚ
  start : Vec2
  stop : Vec2
  width : ℚ
  cls : ℕ
deriving DecidableEq, Repr

/-- Intersection type codes: 2 ↦ end, 3 ↦ T, 4 ↦ cross, otherwise
complex. -/
inductive IKind where
  | endK
  | tK
  | crossK
  | complexK
deriving DecidableEq, Repr

/-- Source `getIntersectionType`. -/
def getIntersectionType (n : ℕ) : IKind :=
  if n = 2 then .endK else if n = 3 then .tK else if n = 4 then .crossK else .complexK

/-- Welder intersection record (source `Intersection`). -/
structure WInter where
  id : ℕ
  position : Vec2
  connectedSegments : List ℚ
  itype : IKind
  angle : ℚ
  radius : ℚ
deriving DecidableEq, Repr

/-- Welder state (source `IntersectionHandler` fields). -/
structure WState where
  segments : JMap ℚ WSeg
  intersections : JMap ℕ WInter
  nextSegmentId : ℕ
  nextIntersectionId : ℕ
deriving Repr

/-- Source `IntersectionHandler.clear` / initial state. -/
def WState.empty : WState :=
  ⟨[], [], 0, 0⟩

/-- Source `IntersectionHandler.lineIntersection`: parallel cutoff
`|denom| < 0.001`; accepts parameters `t, u ∈ [0, 1]`. -/
def lineIntersectionW (p1 p2 p3 p4 : Vec2) : Option Vec2 :=
  let denom := (p1.x - p2.x) * (p3.y - p4.y) - (p1.y - p2.y) * (p3.x - p4.x)
  if |denom| < 1 / 1000 then none
  else
    let t := ((p1.x - p3.x) * (p3.y - p4.y) - (p1.y - p3.y) * (p3.x - p4.x)) / denom
    let u := -((p1.x - p2.x) * (p1.y - p3.y) - (p1.y - p2.y) * (p1.x - p3.x)) / denom
    if 0 ≤ t ∧ t ≤ 1 ∧ 0 ≤ u ∧ u ≤ 1 then
      some ⟨p1.x + t * (p2.x - p1.x), p1.y + t * (p2.y - p1.y)⟩
    else none

/-- Acceptance test of `findIntersections`: the crossing point is strictly
farther than `INTERSECTION_THRESHOLD = 2` from all four endpoints
(squared: 4). -/
def isMiddleIntersection (X : Vec2) (s : WSeg) (e : WSeg) : Prop :=
  4 < distSq X s.start ∧ 4 < distSq X s.stop ∧ 4 < distSq X e.start ∧ 4 < distSq X e.stop

instance (X : Vec2) (s e : WSeg) : Decidable (isMiddleIntersection X s e) := by
  unfold isMiddleIntersection
  infer_instance

/-- Source `IntersectionHandler.findIntersections`: scan the segment table
in iteration order, keep the line-intersection points accepted as mid-span
crossings. -/
def findIntersections (st : WState) (s : WSeg) : List (Vec2 × ℚ) :=
  st.segments.foldl
    (fun acc kv =>
      match lineIntersectionW s.start s.stop kv.2.start kv.2.stop with
      | some X => if isMiddleIntersection X s kv.2 then acc ++ [(X, kv.1)] else acc
      | none => acc)
    []

/-- Comparator key order of the split-point sort: ascending squared
distance from the new segment's start (the source sorts ascending by
distance; squaring preserves the order). -/
def byDistFrom (p : Vec2) (a b : Vec2 × ℚ) : Prop :=
  distSq p a.1 ≤ distSq p b.1

instance (p : Vec2) : DecidableRel (byDistFrom p) := by
  unfold byDistFrom
  infer_instance

instance (p : Vec2) : IsTotal (Vec2 × ℚ) (byDistFrom p) :=
  ⟨fun a b => le_total (distSq p a.1) (distSq p b.1)⟩

instance (p : Vec2) : IsTrans (Vec2 × ℚ) (byDistFrom p) :=
  ⟨fun _ _ _ hab hbc => le_trans hab hbc⟩

/-- Source `IntersectionHandler.splitExistingSegment`: split a stored
segment at a crossing point when the point is strictly farther than 2 from
both endpoints; the first half re-uses the id (re-inserted, hence moved to
the end of the iteration order, exactly as `Map.delete` + `Map.set`), the
second half takes a fresh integer id. -/
def splitExistingSegment (st : WState) (sid : ℚ) (X : Vec2) : WState :=
  match jget st.segments sid with
  | none => st
  | some seg =>
    if 4 < distSq X seg.start ∧ 4 < distSq X seg.stop then
      let m := jdel st.segments sid
      let s1 : WSeg := ⟨sid, seg.start, X, seg.width, seg.cls⟩
      let s2 : WSeg := ⟨(st.nextSegmentId : ℚ), X, seg.stop, seg.width, seg.cls⟩
      { st with
          segments := jset (jset m s1.id s1) s2.id s2
          nextSegmentId := st.nextSegmentId + 1 }
    else st

/-- Source `IntersectionHandler.splitSegmentAtPoints`: sort the accepted
crossing points ascending by distance from the start, cut the new segment
into consecutive sub-segments with fractional sub-ids
`id + index * 0.001`, and split each crossed stored segment at its
point. -/
def splitStep (seg : WSeg) (acc : WState × List WSeg × Vec2 × ℕ) (pt : Vec2 × ℚ) :
    WState × List WSeg × Vec2 × ℕ :=
  let newSeg : WSeg :=
    ⟨seg.id + (acc.2.2.2 : ℚ) / 1000, acc.2.2.1, pt.1, seg.width, seg.cls⟩
  (splitExistingSegment acc.1 pt.2 pt.1, acc.2.1 ++ [newSeg], pt.1, acc.2.2.2 + 1)

def splitSegmentAtPoints (st : WState) (seg : WSeg) (pts : List (Vec2 × ℚ)) :
    WState × List WSeg :=
  if pts = [] then (st, [seg])
  else
    let sorted := List.insertionSort (byDistFrom seg.start) pts
    let step := sorted.foldl (splitStep seg) (st, [], seg.start, 0)
    let last : WSeg :=
      ⟨seg.id + (step.2.2.2 : ℚ) / 1000, step.2.2.1, seg.stop, seg.width, seg.cls⟩
    (step.1, step.2.1 ++ [last])

/-- Connected-segment scan of `createOrUpdateIntersection`: ids of stored
segments with an endpoint strictly closer than 2 to the point (squared:
4), in table order, paired with the running maximal width. -/
def connectedAt (segs : JMap ℚ WSeg) (p : Vec2) : List ℚ × ℚ :=
  segs.foldl
    (fun acc kv =>
      if distSq p kv.2.start < 4 ∨ distSq p kv.2.stop < 4 then
        (acc.1 ++ [kv.1], max acc.2 kv.2.width)
      else acc)
    ([], 0)

/-- Source `IntersectionHandler.calculateAverageAngle`: mean `atan2` of
the incident directions (oracle-valued; the result is stored in the
`angle` field and never read back by any modelled computation). -/
def calculateAverageAngle (O : MathOracle) (st : WState) (ids : List ℚ) (p : Vec2) : ℚ :=
  let acc :=
    ids.foldl
      (fun (acc : ℚ × ℕ) id =>
        match jget st.segments id with
        | none => acc
        | some s =>
          let a :=
            if distSq p s.start < 4 then O.atan2Q (s.stop.y - s.start.y) (s.stop.x - s.start.x)
            else O.atan2Q (s.start.y - s.stop.y) (s.start.x - s.stop.x)
          (acc.1 + a, acc.2 + 1))
      (0, 0)
  if 0 < acc.2 then acc.1 / (acc.2 : ℚ) else 0

/-- Source `IntersectionHandler.createOrUpdateIntersection`: collect the
connected segments at the point; below two, do nothing; otherwise update
the first existing record within distance 2 of the point (keeping its
stored position and angle) or create a fresh record at the point. -/
def createOrUpdateIntersection (O : MathOracle) (st : WState) (p : Vec2) : WState :=
  let conn := connectedAt st.segments p
  if conn.1.length < 2 then st
  else
    match st.intersections.find? (fun kv => distSq kv.2.position p < 4) with
    | some (k, ex) =>
      { st with
          intersections :=
            jset st.intersections k
              { ex with
                  connectedSegments := conn.1
                  itype := getIntersectionType conn.1.length
                  radius := conn.2 * 3 / 4 } }
    | none =>
      let rec' : WInter :=
        ⟨st.nextIntersectionId, p, conn.1, getIntersectionType conn.1.length,
          calculateAverageAngle O st conn.1 p, conn.2 * 3 / 4⟩
      { st with
          intersections := jset st.intersections rec'.id rec'
          nextIntersectionId := st.nextIntersectionId + 1 }

/-- Source `IntersectionHandler.updateIntersections`: bucket the new
sub-segment endpoints and the crossing points by rounded coordinates (the
string keys of the source), then create or update an intersection record
at each bucketed point. -/
def updateIntersections (O : MathOracle) (st : WState) (segs : List WSeg)
    (pts : List (Vec2 × ℚ)) : WState :=
  let m : JMap (ℤ × ℤ) Vec2 :=
    segs.foldl
      (fun m s =>
        jset (jset m (jsRound s.start.x, jsRound s.start.y) s.start)
          (jsRound s.stop.x, jsRound s.stop.y) s.stop)
      []
  let m := pts.foldl (fun m pt => jset m (jsRound pt.1.x, jsRound pt.1.y) pt.1) m
  m.foldl (fun st kv => createOrUpdateIntersection O st kv.2) st

/-- Source `IntersectionHandler.handleEndpointSnapping`, one new segment:
walk the whole segment table in order and repeatedly snap the segment's
endpoints onto any other segment's endpoints closer than
`SNAP_THRESHOLD = 10` (squared: 100); the table entry is mutated in place,
so later comparisons see the already-snapped coordinates. -/
def snapOne (st : WState) (sid : ℚ) : WState :=
  let keys := st.segments.map (·.1)
  keys.foldl
    (fun st k =>
      match jget st.segments sid, jget st.segments k with
      | some seg, some ex =>
        if ex.id = seg.id then st
        else
          let s1 :=
            if distSq seg.start ex.start < 100 then { seg with start := ex.start }
            else if distSq seg.start ex.stop < 100 then { seg with start := ex.stop }
            else seg
          let s2 :=
            if distSq s1.stop ex.start < 100 then { s1 with stop := ex.start }
            else if distSq s1.stop ex.stop < 100 then { s1 with stop := ex.stop }
            else s1
          { st with segments := jset st.segments sid s2 }
      | _, _ => st)
    st

/-- Source `IntersectionHandler.handleEndpointSnapping` over all new
sub-segments. -/
def handleEndpointSnapping (st : WState) (sids : List ℚ) : WState :=
  sids.foldl snapOne st

/-- Source `IntersectionHandler.addSegment`: allocate the id, find the
mid-span crossings, split the new segment (and the crossed ones), insert
the sub-segments, refresh intersection records at the new endpoints and
crossing points, then snap endpoints. -/
def addSegment (O : MathOracle) (st : WState) (p q : Vec2) (width : ℚ) (cls : ℕ) :
    WState × ℕ :=
  let sid := st.nextSegmentId
  let st := { st with nextSegmentId := sid + 1 }
  let newSeg : WSeg := ⟨(sid : ℚ), p, q, width, cls⟩
  let pts := findIntersections st newSeg
  let split := splitSegmentAtPoints st newSeg pts
  let st := split.1
  let st := { st with segments := split.2.foldl (fun m s => jset m s.id s) st.segments }
  let st := updateIntersections O st split.2 pts
  let st := handleEndpointSnapping st (split.2.map (·.id))
  (st, sid)

/-! ## Spatial grid and road graph (`SpatialGrid`, `RoadNetwork`,
source lines 755–1102)

Constants: cell size 50 m, `SNAP_THRESHOLD = 15` (squared: 225),
`MIN_ANGLE` 30 degrees. -/

/-- Road class (source `RoadClass`). -/
inductive RoadClass where
  | highway
  | avenue
  | street
  | localR
deriving DecidableEq, Repr

/-- Source `ROAD_WIDTHS` table. -/
def roadWidth : RoadClass → ℚ
  | .highway => 24
  | .avenue => 16
  | .street => 12
  | .localR => 8

/-- Road material (source `RoadMaterial`). -/
inductive RoadMaterial where
  | dirt
  | cobblestone
  | asphalt
  | concrete
deriving DecidableEq, Repr

/-- Road-graph node (source `RoadNode`). -/
structure RNode where
  id : ℕ
  pos : Vec2
  edges : List ℕ
  isIntersection : Bool
deriving DecidableEq, Repr

/-- Road-graph edge (source `RoadEdge`); `length` caches
`Math.sqrt(distSq)` and is therefore oracle-valued. -/
structure REdge where
  id : ℕ
  nodeA : ℕ
  nodeB : ℕ
  roadClass : RoadClass
  material : RoadMaterial
  width : ℚ
  length : ℚ
deriving DecidableEq, Repr

/-- Source `SpatialGrid.getKey`: floor-divide both coordinates by the cell
size (50). -/
def gridKey (x y : ℚ) : ℤ × ℤ :=
  (⌊x / 50⌋, ⌊y / 50⌋)

/-- Source `SpatialGrid.insert`: append the id to its cell's bucket,
creating the bucket at the end of the map when absent. -/
def gridInsert (g : JMap (ℤ × ℤ) (List ℕ)) (nodeId : ℕ) (x y : ℚ) :
    JMap (ℤ × ℤ) (List ℕ) :=
  let k := gridKey x y
  match jget g k with
  | none => jset g k [nodeId]
  | some l => jset g k (l ++ [nodeId])

/-- Offsets `-cr, …, cr` in loop order. -/
def offsetRange (cr : ℕ) : List ℤ :=
  (List.range (2 * cr + 1)).map (fun i => (i : ℤ) - (cr : ℤ))

/-- Source `SpatialGrid.getNearby`: scan the `⌈radius / cellSize⌉`-ring of
cells, `dx` outer loop and `dy` inner loop both ascending, concatenating
bucket contents in encounter order.  (Callers always pass a positive
radius.) -/
def gridGetNearby (g : JMap (ℤ × ℤ) (List ℕ)) (x y radius : ℚ) : List ℕ :=
  let cr := (⌈radius / 50⌉).toNat
  let c := gridKey x y
  (offsetRange cr).foldl
    (fun acc dx =>
      (offsetRange cr).foldl
        (fun acc dy =>
          match jget g (c.1 + dx, c.2 + dy) with
          | some l => acc ++ l
          | none => acc)
        acc)
    []

/-- Road-network state (source `RoadNetwork` fields; its `rng` member is
not consulted by any of the modelled operations). -/
structure NState where
  nodes : JMap ℕ RNode
  edges : JMap ℕ REdge
  spatial : JMap (ℤ × ℤ) (List ℕ)
  nextNodeId : ℕ
  nextEdgeId : ℕ
deriving Repr

/-- Empty road network. -/
def NState.empty : NState :=
  ⟨[], [], [], 0, 0⟩

/-- Snap scan of `RoadNetwork.addNode`: the first node of the `getNearby`
scan (cells in the fixed `dx`, `dy` loop order, insertion order inside a
bucket) lying strictly closer than `SNAP_THRESHOLD = 15` (squared:
225). -/
def snapCandidate (st : NState) (x y : ℚ) : Option ℕ :=
  (gridGetNearby st.spatial x y 15).findSome? (fun nid =>
    match jget st.nodes nid with
    | some node => if distSq node.pos ⟨x, y⟩ < 225 then some nid else none
    | none => none)

/-- Source `RoadNetwork.addNode`: return the first indexed node of the
`getNearby` scan lying strictly closer than `SNAP_THRESHOLD = 15`
(squared: 225); otherwise allocate a fresh node with empty incidence and
insert it into the spatial index. -/
def addNode (st : NState) (x y : ℚ) : NState × ℕ :=
  match snapCandidate st x y with
  | some nid => (st, nid)
  | none =>
    let id := st.nextNodeId
    let node : RNode := ⟨id, ⟨x, y⟩, [], false⟩
    ({ st with
        nodes := jset st.nodes id node
        spatial := gridInsert st.spatial id x y
        nextNodeId := id + 1 }, id)

/-- Source `RoadNetwork.angleDifference` (oracle-valued angles; the `π`
constant is taken from the oracle). -/
def angleDifference (O : MathOracle) (a1 a2 : ℚ) : ℚ :=
  let d := |a2 - a1|
  if d > O.piQ then 2 * O.piQ - d else d

/-- Source `RoadNetwork.checkMinimumAngle`: every edge already incident to
`nodeId` must leave at least `minAngleDeg` (in radians via the oracle `π`)
between its direction and the direction toward `newNodeId`. -/
def checkMinimumAngle (O : MathOracle) (st : NState) (nodeId newNodeId : ℕ)
    (minAngleDeg : ℚ) : Bool :=
  match jget st.nodes nodeId, jget st.nodes newNodeId with
  | some node, some newNode =>
    let minAngleRad := minAngleDeg * O.piQ / 180
    let newAngle := O.atan2Q (newNode.pos.y - node.pos.y) (newNode.pos.x - node.pos.x)
    node.edges.all (fun eid =>
      match jget st.edges eid with
      | none => true
      | some edge =>
        let otherId := if edge.nodeA = nodeId then edge.nodeB else edge.nodeA
        match jget st.nodes otherId with
        | none => true
        | some otherNode =>
          let existingAngle :=
            O.atan2Q (otherNode.pos.y - node.pos.y) (otherNode.pos.x - node.pos.x)
          ¬ angleDifference O newAngle existingAngle < minAngleRad)
  | _, _ => false

/-- Source `RoadNetwork.addEdge`: missing endpoints reject; an edge of
`nodeA`'s incidence list whose `nodeA` or `nodeB` field equals the second
endpoint is returned unchanged; the 30-degree check can reject; otherwise
the edge is created, pushed onto both endpoints' incidence lists (the same
list twice when the endpoints coincide, exactly as the aliased JavaScript
object), and endpoints with more than one incident edge are flagged as
intersections.  There is no rejection of coincident endpoint ids. -/
def addEdge (O : MathOracle) (st : NState) (a b : ℕ) (cls : RoadClass)
    (mat : RoadMaterial) : NState × Option ℕ :=
  match jget st.nodes a, jget st.nodes b with
  | some nodeA, some nodeB =>
    match
      nodeA.edges.findSome? (fun eid =>
        match jget st.edges eid with
        | some e => if e.nodeB = b ∨ e.nodeA = b then some eid else none
        | none => none)
    with
    | some eid => (st, some eid)
    | none =>
      if checkMinimumAngle O st a b 30 then
        let id := st.nextEdgeId
        let length := O.sqrtQ (distSq nodeA.pos nodeB.pos)
        let edge : REdge := ⟨id, a, b, cls, mat, roadWidth cls, length⟩
        let edges := jset st.edges id edge
        let m1 :=
          match jget st.nodes a with
          | some na => jset st.nodes a { na with edges := na.edges ++ [id] }
          | none => st.nodes
        let m2 :=
          match jget m1 b with
          | some nb => jset m1 b { nb with edges := nb.edges ++ [id] }
          | none => m1
        let m3 :=
          match jget m2 a with
          | some na => if 1 < na.edges.length then jset m2 a { na with isIntersection := true } else m2
          | none => m2
        let m4 :=
          match jget m3 b with
          | some nb => if 1 < nb.edges.length then jset m3 b { nb with isIntersection := true } else m3
          | none => m3
        ({ st with nodes := m4, edges := edges, nextEdgeId := id + 1 }, some id)
      else (st, none)
  | _, _ => (st, none)

/-! ## Geometry kernel (`GeometryUtils`, source lines 1776–1924) -/

/-- Source `GeometryUtils.polygonArea`: absolute shoelace sum halved. -/
def polygonArea (vs : List Vec2) : ℚ :=
  let n := vs.length
  let s :=
    (List.range n).foldl
      (fun acc i =>
        let vi := vs.getD i ⟨0, 0⟩
        let vj := vs.getD ((i + 1) % n) ⟨0, 0⟩
        acc + vi.x * vj.y - vj.x * vi.y)
      0
  |s| / 2

/-- Source `GeometryUtils.polygonCentroid`.  (For a zero-area polygon the
source divides by zero, producing infinities; in `ℚ` the division yields
0.  Every modelled caller guards the area first.) -/
def polygonCentroid (vs : List Vec2) : Vec2 :=
  let area := polygonArea vs
  let n := vs.length
  let acc :=
    (List.range n).foldl
      (fun (acc : ℚ × ℚ) i =>
        let vi := vs.getD i ⟨0, 0⟩
        let vj := vs.getD ((i + 1) % n) ⟨0, 0⟩
        let factor := vi.x * vj.y - vj.x * vi.y
        (acc.1 + (vi.x + vj.x) * factor, acc.2 + (vi.y + vj.y) * factor))
      (0, 0)
  let scale := 1 / (6 * area)
  ⟨|acc.1 * scale|, |acc.2 * scale|⟩

/-- Squared form of `GeometryUtils.pointToSegmentDistance` (the source
value is the square root of this; every modelled use compares it with a
nonnegative bound or takes a maximum, both preserved by squaring). -/
def pointToSegmentDistanceSq (p segStart segEnd : Vec2) : ℚ :=
  let dx := segEnd.x - segStart.x
  let dy := segEnd.y - segStart.y
  let lengthSq := dx * dx + dy * dy
  if lengthSq = 0 then distSq segStart p
  else
    let t := ((p.x - segStart.x) * dx + (p.y - segStart.y) * dy) / lengthSq
    let t := max 0 (min 1 t)
    distSq ⟨segStart.x + t * dx, segStart.y + t * dy⟩ p

/-- Source `GeometryUtils.pointInPolygon`: even–odd ray test (the
division is guarded by the first conjunct, which forces distinct
ordinates). -/
def pointInPolygon (p : Vec2) (vs : List Vec2) : Bool :=
  let n := vs.length
  (List.range n).foldl
    (fun inside i =>
      let vi := vs.getD i ⟨0, 0⟩
      let vj := vs.getD ((i + n - 1) % n) ⟨0, 0⟩
      let intersect :=
        (decide (vi.y > p.y) != decide (vj.y > p.y)) &&
          decide (p.x < (vj.x - vi.x) * (p.y - vi.y) / (vj.y - vi.y) + vi.x)
      if intersect then !inside else inside)
    false

/-- Source `GeometryUtils.offsetPolygon`: displace every vertex along the
mean of its two incident unit edge normals (square roots through the
oracle), scaled by the half-angle formula, or copy it unchanged when the
mean normal is degenerate.  Exactly one output vertex per input vertex in
both branches. -/
def offsetPolygon (O : MathOracle) (vs : List Vec2) (offset : ℚ) : List Vec2 :=
  let n := vs.length
  (List.range n).foldl
    (fun acc i =>
      let prev := vs.getD ((i + n - 1) % n) ⟨0, 0⟩
      let curr := vs.getD i ⟨0, 0⟩
      let next := vs.getD ((i + 1) % n) ⟨0, 0⟩
      let dx1 := curr.x - prev.x
      let dy1 := curr.y - prev.y
      let len1 := O.sqrtQ (dx1 * dx1 + dy1 * dy1)
      let nx1 := -dy1 / len1
      let ny1 := dx1 / len1
      let dx2 := next.x - curr.x
      let dy2 := next.y - curr.y
      let len2 := O.sqrtQ (dx2 * dx2 + dy2 * dy2)
      let nx2 := -dy2 / len2
      let ny2 := dx2 / len2
      let nx := (nx1 + nx2) / 2
      let ny := (ny1 + ny2) / 2
      let nlen := O.sqrtQ (nx * nx + ny * ny)
      if 1 / 1000 < nlen then
        let nx := nx / nlen
        let ny := ny / nlen
        let dot := nx1 * nx2 + ny1 * ny2
        let scale := offset / O.sqrtQ ((1 + dot) / 2)
        acc ++ [⟨curr.x + nx * scale, curr.y + ny * scale⟩]
      else acc ++ [curr])
    []

/-- Source `GeometryUtils.polygonPerimeter` (oracle-valued edge
lengths). -/
def polygonPerimeter (O : MathOracle) (vs : List Vec2) : ℚ :=
  let n := vs.length
  (List.range n).foldl
    (fun acc i =>
      let vi := vs.getD i ⟨0, 0⟩
      let vj := vs.getD ((i + 1) % n) ⟨0, 0⟩
      acc + O.sqrtQ (distSq vi vj))
    0

/-- Source `GeometryUtils.lineIntersection` (the subdivision variant):
parallel cutoff `|denom| < 0.0001`. -/
def lineIntersectionG (p1 p2 p3 p4 : Vec2) : Option Vec2 :=
  let denom := (p1.x - p2.x) * (p3.y - p4.y) - (p1.y - p2.y) * (p3.x - p4.x)
  if |denom| < 1 / 10000 then none
  else
    let t := ((p1.x - p3.x) * (p3.y - p4.y) - (p1.y - p3.y) * (p3.x - p4.x)) / denom
    let u := -((p1.x - p2.x) * (p1.y - p3.y) - (p1.y - p2.y) * (p1.x - p3.x)) / denom
    if 0 ≤ t ∧ t ≤ 1 ∧ 0 ≤ u ∧ u ≤ 1 then
      some ⟨p1.x + t * (p2.x - p1.x), p1.y + t * (p2.y - p1.y)⟩
    else none

/-! ## Parcel subdivider (`ParcelSubdivider`, source lines 1927–2261) -/

/-- Zone type (source `ZoneType`). -/
inductive ZoneType where
  | residential
  | commercial
  | industrial
  | noneZ
deriving DecidableEq, Repr

/-- Zone density (source `ZoneDensity`). -/
inductive ZoneDensity where
  | low
  | medium
  | high
deriving DecidableEq, Repr

/-- Source `PARCEL_WIDTHS` table: `(min, max)` by zone type. -/
def parcelWidths : ZoneType → ℚ × ℚ
  | .residential => (15, 30)
  | .commercial => (20, 40)
  | .industrial => (30, 60)
  | .noneZ => (0, 0)

/-- Source `DEPTH_MULTIPLIER` table. -/
def depthMultiplier : ZoneDensity → ℚ
  | .low => 2
  | .medium => 3 / 2
  | .high => 1

/-- Source `ParcelSubdivider.isLeftOfLine`: nonnegative cross product. -/
def isLeftOfLine (p lineStart lineEnd : Vec2) : Bool :=
  decide (0 ≤ (lineEnd.x - lineStart.x) * (p.y - lineStart.y) -
    (lineEnd.y - lineStart.y) * (p.x - lineStart.x))

/-- Source `ParcelSubdivider.clipToPolygon`: Sutherland–Hodgman against
each edge of the clip polygon, keeping the left side; crossing points come
from the bounded-parameter `lineIntersection`, so a `none` result simply
pushes nothing. -/
def clipToPolygon (subject clip : List Vec2) : List Vec2 :=
  (List.range clip.length).foldl
    (fun output i =>
      if output = [] then output
      else
        let edge1 := clip.getD i ⟨0, 0⟩
        let edge2 := clip.getD ((i + 1) % clip.length) ⟨0, 0⟩
        let input := output
        (List.range input.length).foldl
          (fun out j =>
            let curr := input.getD j ⟨0, 0⟩
            let prev := input.getD ((j + input.length - 1) % input.length) ⟨0, 0⟩
            let currInside := isLeftOfLine curr edge1 edge2
            let prevInside := isLeftOfLine prev edge1 edge2
            if currInside then
              if !prevInside then
                match lineIntersectionG prev curr edge1 edge2 with
                | some X => out ++ [X, curr]
                | none => out ++ [curr]
              else out ++ [curr]
            else if prevInside then
              match lineIntersectionG prev curr edge1 edge2 with
              | some X => out ++ [X]
              | none => out
            else out)
          [])
    subject

/-- Source `ParcelSubdivider.clipByHalfPlane`: keep the side with
`(v - point) · normal ≥ 0`, inserting the crossing point on sign
changes. -/
def clipByHalfPlane (polygon : List Vec2) (point normal : Vec2) : List Vec2 :=
  if polygon.length < 3 then []
  else
    let n := polygon.length
    (List.range n).foldl
      (fun clipped i =>
        let curr := polygon.getD i ⟨0, 0⟩
        let next := polygon.getD ((i + 1) % n) ⟨0, 0⟩
        let currSide := (curr.x - point.x) * normal.x + (curr.y - point.y) * normal.y
        let nextSide := (next.x - point.x) * normal.x + (next.y - point.y) * normal.y
        if 0 ≤ currSide then
          if nextSide < 0 then
            let t := currSide / (currSide - nextSide)
            clipped ++ [curr, ⟨curr.x + t * (next.x - curr.x), curr.y + t * (next.y - curr.y)⟩]
          else clipped ++ [curr]
        else if 0 ≤ nextSide then
          let t := currSide / (currSide - nextSide)
          clipped ++ [⟨curr.x + t * (next.x - curr.x), curr.y + t * (next.y - curr.y)⟩]
        else clipped)
      []

/-- Source `ParcelSubdivider.computeVoronoiCell`: clip the boundary by the
perpendicular bisector toward every other seed; the source skips the seed
itself by object identity, embedded here by its index.  Clipping stops
refining once the cell degenerates below 3 vertices. -/
def computeVoronoiCell (i : ℕ) (seeds : List Vec2) (boundary : List Vec2) : List Vec2 :=
  let seed := seeds.getD i ⟨0, 0⟩
  (List.range seeds.length).foldl
    (fun cell j =>
      if j = i then cell
      else if cell.length < 3 then cell
      else
        let otherSeed := seeds.getD j ⟨0, 0⟩
        let midpoint : Vec2 := ⟨(seed.x + otherSeed.x) / 2, (seed.y + otherSeed.y) / 2⟩
        let dx := otherSeed.x - seed.x
        let dy := otherSeed.y - seed.y
        clipByHalfPlane cell midpoint ⟨-dy, dx⟩)
    boundary

/-- Source `ParcelSubdivider.getPolygonBounds` as `(minX, minY, maxX,
maxY)`.  (The source folds from infinities; no modelled caller passes an
empty polygon, for which this embedding returns zeros.) -/
def getPolygonBounds (vs : List Vec2) : ℚ × ℚ × ℚ × ℚ :=
  match vs with
  | [] => (0, 0, 0, 0)
  | v :: rest =>
    rest.foldl
      (fun (acc : ℚ × ℚ × ℚ × ℚ) w =>
        (min acc.1 w.x, min acc.2.1 w.y, max acc.2.2.1 w.x, max acc.2.2.2 w.y))
      (v.x, v.y, v.x, v.y)

/-- Squared form of `ParcelSubdivider.estimateBlockDepth`: the maximal
distance from a block vertex to the frontage edge (maximum of square
roots equals square root of the maximum). -/
def estimateBlockDepthSq (block : List Vec2) (frontageEdgeIndex : ℕ) : ℚ :=
  let frontStart := block.getD frontageEdgeIndex ⟨0, 0⟩
  let frontEnd := block.getD ((frontageEdgeIndex + 1) % block.length) ⟨0, 0⟩
  block.foldl (fun acc v => max acc (pointToSegmentDistanceSq v frontStart frontEnd)) 0

/-- Ceiling of the real square root of a natural number, computed
exactly. -/
def natCeilSqrt (n : ℕ) : ℕ :=
  if intSqrt n * intSqrt n = n then intSqrt n else intSqrt n + 1

/-- Source `ParcelSubdivider.subdivideWithSkeleton`: frontage-aligned
strips of target width and depth, each clipped to the block and kept when
it retains at least 3 vertices and 50 m² of area; a second row is emitted
for deep blocks at medium or high density.  Consumes no randomness. -/
def subdivideWithSkeleton (O : MathOracle) (block : List Vec2) (zoneType : ZoneType)
    (zoneDensity : ZoneDensity) (frontageEdgeIndex : ℕ) : List (List Vec2) :=
  let baseWidth := parcelWidths zoneType
  let densityMultiplier : ℚ :=
    match zoneDensity with
    | .high => 7 / 10
    | .medium => 85 / 100
    | .low => 1
  let targetWidth := ((baseWidth.1 + baseWidth.2) / 2) * densityMultiplier
  let targetDepth := targetWidth * depthMultiplier zoneDensity
  let frontStart := block.getD frontageEdgeIndex ⟨0, 0⟩
  let frontEnd := block.getD ((frontageEdgeIndex + 1) % block.length) ⟨0, 0⟩
  let frontageLength :=
    O.sqrtQ ((frontEnd.x - frontStart.x) * (frontEnd.x - frontStart.x) +
      (frontEnd.y - frontStart.y) * (frontEnd.y - frontStart.y))
  let numParcels := max 1 (jsRound (frontageLength / targetWidth))
  let frontDir : Vec2 :=
    ⟨(frontEnd.x - frontStart.x) / frontageLength, (frontEnd.y - frontStart.y) / frontageLength⟩
  let perpDir : Vec2 := ⟨-frontDir.y, frontDir.x⟩
  let doDoubleRow :=
    (targetDepth * 5 / 2) * (targetDepth * 5 / 2) < estimateBlockDepthSq block frontageEdgeIndex ∧
      zoneDensity ≠ .low
  (List.range numParcels.toNat).foldl
    (fun parcels i =>
      let t1 : ℚ := (i : ℚ) / (numParcels : ℚ)
      let t2 : ℚ := ((i : ℚ) + 1) / (numParcels : ℚ)
      let p1 : Vec2 :=
        ⟨frontStart.x + t1 * (frontEnd.x - frontStart.x),
          frontStart.y + t1 * (frontEnd.y - frontStart.y)⟩
      let p2 : Vec2 :=
        ⟨frontStart.x + t2 * (frontEnd.x - frontStart.x),
          frontStart.y + t2 * (frontEnd.y - frontStart.y)⟩
      let p3 : Vec2 := ⟨p2.x + perpDir.x * targetDepth, p2.y + perpDir.y * targetDepth⟩
      let p4 : Vec2 := ⟨p1.x + perpDir.x * targetDepth, p1.y + perpDir.y * targetDepth⟩
      let frontParcel := clipToPolygon [p1, p2, p3, p4] block
      let parcels :=
        if 3 ≤ frontParcel.length ∧ 50 ≤ polygonArea frontParcel then parcels ++ [frontParcel]
        else parcels
      if doDoubleRow then
        let backP3 : Vec2 := ⟨p3.x + perpDir.x * targetDepth, p3.y + perpDir.y * targetDepth⟩
        let backP4 : Vec2 := ⟨p4.x + perpDir.x * targetDepth, p4.y + perpDir.y * targetDepth⟩
        let backParcel := clipToPolygon [p4, p3, backP3, backP4] block
        if 3 ≤ backParcel.length ∧ 50 ≤ polygonArea backParcel then parcels ++ [backParcel]
        else parcels
      else parcels)
    []

/-- Source `ParcelSubdivider.subdivideWithVoronoi`: seed a jittered grid
(two RNG draws per visited cell), top up by rejection sampling, then cut
one half-plane-clipped cell per seed, keeping cells with at least 3
vertices and 50 m² of area.  Returns the surviving cells together with
the advanced RNG state. -/
def subdivideWithVoronoi (block : List Vec2) (zoneType : ZoneType)
    (zoneDensity : ZoneDensity) (rng : ℕ) : List (List Vec2) × ℕ :=
  let blockArea := polygonArea block
  let baseWidth := parcelWidths zoneType
  let avgWidth := (baseWidth.1 + baseWidth.2) / 2
  let densityMultiplier : ℚ :=
    match zoneDensity with
    | .high => 6 / 10
    | .medium => 8 / 10
    | .low => 1
  let targetParcelArea := avgWidth * avgWidth * depthMultiplier zoneDensity * densityMultiplier
  let maxParcels := ⌈blockArea / (baseWidth.1 * baseWidth.1 * 8 / 10)⌉
  let numParcels := max 2 (min maxParcels (jsRound (blockArea / targetParcelArea)))
  let bounds := getPolygonBounds block
  let minX := bounds.1
  let minY := bounds.2.1
  let maxX := bounds.2.2.1
  let maxY := bounds.2.2.2
  let gridSize := natCeilSqrt numParcels.toNat
  let cellWidth := (maxX - minX) / (gridSize : ℚ)
  let cellHeight := (maxY - minY) / (gridSize : ℚ)
  let gridPhase :=
    (List.range gridSize).foldl
      (fun (acc : List Vec2 × ℕ) row =>
        (List.range gridSize).foldl
          (fun (acc : List Vec2 × ℕ) col =>
            if acc.1.length < numParcels.toNat then
              let d1 := mulberryStep acc.2
              let d2 := mulberryStep d1.1
              let jitterX := (d1.2 - 1 / 2) * cellWidth * 3 / 10
              let jitterY := (d2.2 - 1 / 2) * cellHeight * 3 / 10
              let p : Vec2 :=
                ⟨minX + ((col : ℚ) + 1 / 2) * cellWidth + jitterX,
                  minY + ((row : ℚ) + 1 / 2) * cellHeight + jitterY⟩
              if pointInPolygon p block then (acc.1 ++ [p], d2.1) else (acc.1, d2.1)
            else acc)
          acc)
      ([], rng)
  let fillPhase :=
    (List.range (numParcels.toNat * 20)).foldl
      (fun (acc : List Vec2 × ℕ) _ =>
        if acc.1.length < numParcels.toNat then
          let d1 := mulberryStep acc.2
          let d2 := mulberryStep d1.1
          let p : Vec2 := ⟨minX + d1.2 * (maxX - minX), minY + d2.2 * (maxY - minY)⟩
          if pointInPolygon p block then
            let tooClose :=
              acc.1.any (fun s => decide (distSq s p < targetParcelArea * 16 / 100))
            if tooClose then (acc.1, d2.1) else (acc.1 ++ [p], d2.1)
          else (acc.1, d2.1)
        else acc)
      gridPhase
  let seeds := fillPhase.1
  let cells :=
    (List.range seeds.length).foldl
      (fun parcels i =>
        let cell := computeVoronoiCell i seeds block
        if 3 ≤ cell.length ∧ 50 ≤ polygonArea cell then parcels ++ [cell] else parcels)
      []
  (cells, fillPhase.2)

/-! ## City block manager (`CityBlockManager`, source lines 2264–2860) -/

/-- City block (source `CityBlock`). -/
structure Block where
  id : ℕ
  vertices : List Vec2
  holes : List (List Vec2)
  parcels : List ℕ
  area : ℚ
  perimeter : ℚ
  roadEdges : List ℕ
deriving DecidableEq, Repr

/-- Land parcel (source `Parcel`).  `frontageEdge` is `-1` or a road-edge
id (or a block-edge index on road-less blocks), hence an integer. -/
structure Parcel where
  id : ℕ
  vertices : List Vec2
  zoneType : ZoneType
  zoneDensity : ZoneDensity
  area : ℚ
  frontage : ℚ
  frontageEdge : ℤ
  isCorner : Bool
  centroid : Vec2
  blockId : ℕ
deriving DecidableEq, Repr

/-- Block-manager state (source `CityBlockManager` fields; the shared
RNG stream is threaded explicitly through `paintZone`). -/
structure BState where
  blocks : JMap ℕ Block
  parcels : JMap ℕ Parcel
  nextBlockId : ℕ
  nextParcelId : ℕ
deriving Repr

/-- Empty block manager. -/
def BState.empty : BState :=
  ⟨[], [], 0, 0⟩

/-- Subdivision method selector (source `subdivisionMethod`). -/
inductive SubMethod where
  | skeleton
  | voronoi
deriving DecidableEq, Repr

/-- Source `ZonePaintRequest`. -/
structure ZonePaintRequest where
  polygon : List Vec2
  zoneType : ZoneType
  zoneDensity : ZoneDensity
  subdivisionMethod : Option SubMethod
deriving Repr

/-- Source `CityBlockManager.polygonsIntersect`: vertex containment either
way, or any crossing edge pair. -/
def polygonsIntersect (poly1 poly2 : List Vec2) : Bool :=
  poly1.any (fun v => pointInPolygon v poly2) ||
    poly2.any (fun v => pointInPolygon v poly1) ||
      (List.range poly1.length).any (fun i =>
        let p1 := poly1.getD i ⟨0, 0⟩
        let p2 := poly1.getD ((i + 1) % poly1.length) ⟨0, 0⟩
        (List.range poly2.length).any (fun j =>
          let p3 := poly2.getD j ⟨0, 0⟩
          let p4 := poly2.getD ((j + 1) % poly2.length) ⟨0, 0⟩
          (lineIntersectionG p1 p2 p3 p4).isSome))

/-- Source `CityBlockManager.edgesOverlap` in squared form: degenerate
edges are rejected at `0.001` (squared: `10^-6`), near-parallelism is the
normalized-dot test at `0.95` (squared: `0.9025`), and both endpoints of
the first edge must lie within `2` of the second (squared: `4`). -/
def edgesOverlap (a1 a2 b1 b2 : Vec2) : Bool :=
  let lenASq := distSq a1 a2
  let lenBSq := distSq b1 b2
  if lenASq < 1 / 1000000 ∨ lenBSq < 1 / 1000000 then false
  else
    let dotRaw := (a2.x - a1.x) * (b2.x - b1.x) + (a2.y - a1.y) * (b2.y - b1.y)
    if dotRaw * dotRaw < (9025 / 10000) * lenASq * lenBSq then false
    else
      decide (pointToSegmentDistanceSq a1 b1 b2 < 4) &&
        decide (pointToSegmentDistanceSq a2 b1 b2 < 4)

/-- Frontage-edge selection of `paintZone` (source lines 2415–2449): the
block edge whose midpoint is closest to one of the block's bounding road
edges (strict improvement, so the earliest minimiser wins; index 0 when
the block has no road edges). -/
def bestFrontageIndex (net : NState) (blk : Block) : ℕ :=
  let n := blk.vertices.length
  let res :=
    (List.range n).foldl
      (fun (acc : ℕ × Option ℚ) i =>
        let eS := blk.vertices.getD i ⟨0, 0⟩
        let eE := blk.vertices.getD ((i + 1) % n) ⟨0, 0⟩
        let mid : Vec2 := ⟨(eS.x + eE.x) / 2, (eS.y + eE.y) / 2⟩
        blk.roadEdges.foldl
          (fun (acc : ℕ × Option ℚ) rid =>
            match jget net.edges rid with
            | none => acc
            | some e =>
              match jget net.nodes e.nodeA, jget net.nodes e.nodeB with
              | some na, some nb =>
                let dSq := pointToSegmentDistanceSq mid na.pos nb.pos
                match acc.2 with
                | none => (i, some dSq)
                | some m => if dSq < m then (i, some dSq) else acc
              | _, _ => acc)
          acc)
      (0, none)
  res.1

/-- Frontage scan of the block path of `paintZone` (source lines
2476–2519): walk every parcel edge against every block edge, summing
matched edge lengths and collecting the fronted road-edge ids (or block
edge indices when the block has no road information); returns
`(frontage, frontageEdge, distinct fronted ids)`. -/
def frontageScan (O : MathOracle) (blkVerts : List Vec2) (roadEdges : List ℕ)
    (verts : List Vec2) : ℚ × ℤ × List ℤ :=
  let n := verts.length
  let bn := blkVerts.length
  (List.range n).foldl
    (fun (acc : ℚ × ℤ × List ℤ) i =>
      let eS := verts.getD i ⟨0, 0⟩
      let eE := verts.getD ((i + 1) % n) ⟨0, 0⟩
      let edgeLength := O.sqrtQ (distSq eS eE)
      (List.range bn).foldl
        (fun (acc : ℚ × ℤ × List ℤ) j =>
          let bS := blkVerts.getD j ⟨0, 0⟩
          let bE := blkVerts.getD ((j + 1) % bn) ⟨0, 0⟩
          if edgesOverlap eS eE bS bE then
            let fr := acc.1 + edgeLength
            if 0 < roadEdges.length then
              match roadEdges.get? j with
              | some rid =>
                let fe := if acc.2.1 = -1 then (rid : ℤ) else acc.2.1
                let fs := if (rid : ℤ) ∈ acc.2.2 then acc.2.2 else acc.2.2 ++ [(rid : ℤ)]
                (fr, fe, fs)
              | none => (fr, acc.2.1, acc.2.2)
            else
              if 10 < edgeLength then
                let fe := if acc.2.1 = -1 then (j : ℤ) else acc.2.1
                let fs := if (j : ℤ) ∈ acc.2.2 then acc.2.2 else acc.2.2 ++ [(j : ℤ)]
                (fr, fe, fs)
              else (fr, acc.2.1, acc.2.2)
          else acc)
        acc)
    (0, -1, [])

/-- Longest parcel edge (oracle edge lengths, source lines 2526–2536 and
2596–2603): the frontage fallback. -/
def maxEdgeLength (O : MathOracle) (verts : List Vec2) : ℚ :=
  let n := verts.length
  (List.range n).foldl
    (fun m i =>
      max m (O.sqrtQ (distSq (verts.getD i ⟨0, 0⟩) (verts.getD ((i + 1) % n) ⟨0, 0⟩))))
    0

/-- Parcel creation of the block path of `paintZone` (source lines
2469–2555): drop polygons below 3 vertices or 50 m², compute frontage
and corner data, and append the records.  Returns the updated parcel
table, the next parcel id, and the created records in order. -/
def emitBlockParcels (O : MathOracle) (zt : ZoneType) (zd : ZoneDensity)
    (blkVerts : List Vec2) (roadEdges : List ℕ) (blockId : ℕ)
    (polys : List (List Vec2)) (parcels : JMap ℕ Parcel) (nextPid : ℕ) :
    JMap ℕ Parcel × ℕ × List Parcel :=
  polys.foldl
    (fun (acc : JMap ℕ Parcel × ℕ × List Parcel) verts =>
      if verts.length < 3 then acc
      else
        let area := polygonArea verts
        if area < 50 then acc
        else
          let scan := frontageScan O blkVerts roadEdges verts
          let frontage :=
            if scan.1 = 0 ∧ 3 ≤ verts.length then maxEdgeLength O verts else scan.1
          let p : Parcel :=
            ⟨acc.2.1, verts, zt, zd, area, frontage, scan.2.1, 1 < scan.2.2.length,
              polygonCentroid verts, blockId⟩
          (jset acc.1 p.id p, acc.2.1 + 1, acc.2.2 ++ [p]))
    (parcels, nextPid, [])

/-- Parcel creation of the standalone (virtual-block) path of `paintZone`
(source lines 2586–2622): same degeneracy guards, frontage estimated as
the longest edge, no frontage edge, never a corner. -/
def emitStandaloneParcels (O : MathOracle) (zt : ZoneType) (zd : ZoneDensity)
    (blockId : ℕ) (polys : List (List Vec2)) (parcels : JMap ℕ Parcel) (nextPid : ℕ) :
    JMap ℕ Parcel × ℕ × List Parcel :=
  polys.foldl
    (fun (acc : JMap ℕ Parcel × ℕ × List Parcel) verts =>
      if verts.length < 3 then acc
      else
        let area := polygonArea verts
        if area < 50 then acc
        else
          let estimatedFrontage := if 3 ≤ verts.length then maxEdgeLength O verts else 0
          let p : Parcel :=
            ⟨acc.2.1, verts, zt, zd, area, estimatedFrontage, -1, false,
              polygonCentroid verts, blockId⟩
          (jset acc.1 p.id p, acc.2.1 + 1, acc.2.2 ++ [p]))
    (parcels, nextPid, [])

/-- Block loop of `paintZone` (source lines 2403–2557), as explicit
recursion over a snapshot of the block entries (the loop only mutates the
visited block's parcel list, never the key set, so the snapshot is the
iteration the source performs): each block whose polygon intersects the
paint polygon has its parcels discarded and is re-subdivided by the
requested method. -/
def paintLoop (O : MathOracle) (net : NState) (req : ZonePaintRequest) :
    List (ℕ × Block) → BState → ℕ → List Parcel → Bool → BState × ℕ × List Parcel × Bool
  | [], st, rng, acc, found => (st, rng, acc, found)
  | (bid, blk) :: rest, st, rng, acc, found =>
    if polygonsIntersect blk.vertices req.polygon then
      let parcels0 := blk.parcels.foldl (fun m pid => jdel m pid) st.parcels
      let method := req.subdivisionMethod.getD .skeleton
      let bfi := bestFrontageIndex net blk
      let sub : List (List Vec2) × ℕ :=
        match method with
        | .voronoi => subdivideWithVoronoi blk.vertices req.zoneType req.zoneDensity rng
        | .skeleton =>
          (subdivideWithSkeleton O blk.vertices req.zoneType req.zoneDensity bfi, rng)
      let em :=
        emitBlockParcels O req.zoneType req.zoneDensity blk.vertices blk.roadEdges bid
          sub.1 parcels0 st.nextParcelId
      let newIds := em.2.2.map (·.id)
      let st' : BState :=
        { st with
            blocks := jset st.blocks bid { blk with parcels := newIds }
            parcels := em.1
            nextParcelId := em.2.1 }
      paintLoop O net req rest st' sub.2 (acc ++ em.2.2) true
    else paintLoop O net req rest st rng acc found

/-- Source `CityBlockManager.paintZone`: run the block loop; when no block
intersected and the paint polygon has at least 3 vertices, create a
virtual block equal to the paint polygon and subdivide it once with the
skeleton method at frontage index 0.  Returns the new state, the advanced
RNG state, and the created parcel records in emission order (their ids
are the source's `affectedParcels` reply). -/
def paintZone (O : MathOracle) (st : BState) (rng : ℕ) (net : NState)
    (req : ZonePaintRequest) : BState × ℕ × List Parcel :=
  let lp := paintLoop O net req st.blocks st rng [] false
  let st1 := lp.1
  let rng1 := lp.2.1
  let acc := lp.2.2.1
  let found := lp.2.2.2
  if ¬found ∧ 3 ≤ req.polygon.length then
    let vbId := st1.nextBlockId
    let polys := subdivideWithSkeleton O req.polygon req.zoneType req.zoneDensity 0
    let em :=
      emitStandaloneParcels O req.zoneType req.zoneDensity vbId polys st1.parcels
        st1.nextParcelId
    let vb : Block :=
      ⟨vbId, req.polygon, [], em.2.2.map (·.id), polygonArea req.polygon,
        polygonPerimeter O req.polygon, []⟩
    ({ st1 with
        blocks := jset st1.blocks vbId vb
        parcels := em.1
        nextBlockId := vbId + 1
        nextParcelId := em.2.1 }, rng1, acc ++ em.2.2)
  else (st1, rng1, acc)

/-! ## Massing generator (`SplitGrammar`, `BuildingManager`, source lines
2861–4601)

Constants: `FLOOR_HEIGHT = 3`, setback and height ranges by density,
era-indexed style and roof tables. -/

/-- Era tag (source `EraTag` strings; their lexicographic order is the
chronological order of the numeric prefixes, embedded by `eraIndex`). -/
inductive Era where
  | e1890s
  | e1910s
  | e1930s
  | e1950s
  | e1970s
  | e1990s
  | e2010s
  | e2030s
deriving DecidableEq, Repr

/-- Chronological index of an era tag; string comparisons such as
`era >= '1950s'` are embedded as comparisons of these indices. -/
def eraIndex : Era → ℕ
  | .e1890s => 0
  | .e1910s => 1
  | .e1930s => 2
  | .e1950s => 3
  | .e1970s => 4
  | .e1990s => 5
  | .e2010s => 6
  | .e2030s => 7

/-- Building style (source `BuildingStyle`). -/
inductive BStyle where
  | victorian
  | artDeco
  | modern
  | brutalist
  | postmodern
  | contemporary
  | futuristic
deriving DecidableEq, Repr

/-- Roof type (source `RoofType`). -/
inductive Roof where
  | flat
  | gable
  | hip
  | mansard
  | pyramid
  | barrel
  | sawtooth
  | green
deriving DecidableEq, Repr

/-- Source `STYLE_BY_ERA` table. -/
def styleByEra : Era → List BStyle
  | .e1890s => [.victorian]
  | .e1910s => [.victorian, .artDeco]
  | .e1930s => [.artDeco]
  | .e1950s => [.modern, .brutalist]
  | .e1970s => [.brutalist, .modern]
  | .e1990s => [.postmodern, .contemporary]
  | .e2010s => [.contemporary, .modern]
  | .e2030s => [.futuristic, .contemporary]

/-- Source `ROOF_BY_ERA` table. -/
def roofByEra : Era → List Roof
  | .e1890s => [.gable, .hip, .mansard]
  | .e1910s => [.gable, .hip, .mansard, .pyramid]
  | .e1930s => [.flat, .pyramid, .barrel]
  | .e1950s => [.flat, .sawtooth]
  | .e1970s => [.flat]
  | .e1990s => [.flat, .pyramid, .hip]
  | .e2010s => [.flat, .green]
  | .e2030s => [.flat, .green, .pyramid]

/-- Source `SETBACK_BY_DENSITY` table as `(min, max)`. -/
def setbackByDensity : ZoneDensity → ℚ × ℚ
  | .low => (4, 6)
  | .medium => (2, 4)
  | .high => (1, 2)

/-- Source `HEIGHT_BY_DENSITY` table as `(min, max)`. -/
def heightByDensity : ZoneDensity → ℚ × ℚ
  | .low => (3, 6)
  | .medium => (9, 15)
  | .high => (18, 60)

/-- Source `SplitGrammar.splitVertical`: style base/roof ratios jittered
by two draws of the shared RNG, clamped to `[0.05, 0.25]` and
`[0.03, 0.25]`; the body is the remainder.  Returns
`((base, body, roof), rng)`. -/
def splitVertical (rng : ℕ) (height : ℚ) (style : BStyle) : (ℚ × ℚ × ℚ) × ℕ :=
  let ratios : ℚ × ℚ :=
    match style with
    | .victorian => (15 / 100, 20 / 100)
    | .artDeco => (20 / 100, 15 / 100)
    | .modern => (10 / 100, 5 / 100)
    | .contemporary => (10 / 100, 5 / 100)
    | .brutalist => (8 / 100, 3 / 100)
    | .postmodern => (12 / 100, 10 / 100)
    | .futuristic => (5 / 100, 8 / 100)
  let d1 := mulberryStep rng
  let d2 := mulberryStep d1.1
  let baseRatio := ratios.1 + (d1.2 - 1 / 2) * 5 / 100
  let roofRatio := ratios.2 + (d2.2 - 1 / 2) * 5 / 100
  let base := height * max (5 / 100) (min (25 / 100) baseRatio)
  let roof := height * max (3 / 100) (min (25 / 100) roofRatio)
  let body := height - base - roof
  ((base, body, roof), d2.1)

/-- Source `SplitGrammar.splitFloors`: the body is divided into
`max(1, round(bodyHeight / 3))` equal floor plates. -/
def splitFloors (bodyHeight : ℚ) : List ℚ :=
  let floorCount := max 1 (jsRound (bodyHeight / 3))
  let actualFloorHeight := bodyHeight / (floorCount : ℚ)
  List.replicate floorCount.toNat actualFloorHeight

/-- Building massing (source `BuildingMassing`). -/
structure BuildingMassing where
  id : ℕ
  parcelId : ℕ
  footprint : List Vec2
  height : ℚ
  baseHeight : ℚ
  bodyHeight : ℚ
  roofHeight : ℚ
  floorCount : ℤ
  style : BStyle
  roofType : Roof
  setback : ℚ
  seed : ℕ
  zoneType : ZoneType
  zoneDensity : ZoneDensity
  level : ℕ
deriving DecidableEq, Repr

/-- Building-manager state (source `BuildingManager` fields relevant to
massing generation; the mesh cache is untouched by it). -/
structure BuildState where
  buildings : JMap ℕ BuildingMassing
  nextBuildingId : ℕ
deriving Repr

/-- Empty building manager. -/
def BuildState.empty : BuildState :=
  ⟨[], 0⟩

/-- Source `BuildingManager.getStyleForEra`: one RNG draw indexes the
era's style list. -/
def getStyleForEra (era : Era) (rng : ℕ) : BStyle × ℕ :=
  let styles := styleByEra era
  let d := mulberryStep rng
  (styles.getD (⌊d.2 * (styles.length : ℚ)⌋).toNat .modern, d.1)

/-- Source `BuildingManager.getRoofForEra`: at high density one draw above
`0.3` forces a flat roof; otherwise one further draw indexes the era's
roof list (the density test short-circuits, so non-high densities spend
no draw on it). -/
def getRoofForEra (era : Era) (density : ZoneDensity) (rng : ℕ) : Roof × ℕ :=
  let roofs := roofByEra era
  if density = .high then
    let d := mulberryStep rng
    if 3 / 10 < d.2 then (.flat, d.1)
    else
      let d2 := mulberryStep d.1
      (roofs.getD (⌊d2.2 * (roofs.length : ℚ)⌋).toNat .flat, d2.1)
  else
    let d2 := mulberryStep rng
    (roofs.getD (⌊d2.2 * (roofs.length : ℚ)⌋).toNat .flat, d2.1)

/-- Source `BuildingManager.getSetback`: one draw in the density's setback
range. -/
def getSetback (density : ZoneDensity) (rng : ℕ) : ℚ × ℕ :=
  let range := setbackByDensity density
  let d := mulberryStep rng
  (range.1 + d.2 * (range.2 - range.1), d.1)

/-- Source `BuildingManager.generateBuildingForParcel`: per-parcel RNG
seeded `parcel.id + level * 1000` drives style, roof, setback and height;
the footprint is the inward offset by the setback, aborting below 3
vertices; the *stored* floor count is `max(1, round(height / 3))`
computed from the height *before* the zone adjustment; the vertical split
(drawing from the shared RNG stream, threaded in and out) yields the
component heights.  Returns the updated manager, the advanced shared RNG
state, and the massing if one was emitted. -/
def generateBuildingForParcel (O : MathOracle) (bst : BuildState) (gRng : ℕ)
    (parcel : Parcel) (era : Era) (level : ℕ) :
    BuildState × ℕ × Option BuildingMassing :=
  if parcel.zoneType = .noneZ then (bst, gRng, none)
  else
    let pr0 := parcel.id + level * 1000
    let sty := getStyleForEra era pr0
    let rf := getRoofForEra era parcel.zoneDensity sty.2
    let sb := getSetback parcel.zoneDensity rf.2
    let footprint := offsetPolygon O parcel.vertices (-sb.1)
    if footprint.length < 3 then (bst, gRng, none)
    else
      let heightRange := heightByDensity parcel.zoneDensity
      let d := mulberryStep sb.2
      let baseHeight := heightRange.1 + d.2 * (heightRange.2 - heightRange.1)
      let height := baseHeight * (1 + ((level : ℚ) - 1) * 3 / 10)
      let floorCount := max 1 (jsRound (height / 3))
      let adjustedHeight :=
        match parcel.zoneType with
        | .commercial => height * 11 / 10
        | .industrial => height * 7 / 10
        | _ => height
      let adjustedStyle :=
        match parcel.zoneType with
        | .industrial => if eraIndex .e1950s ≤ eraIndex era then .modern else sty.1
        | _ => sty.1
      let splits := splitVertical gRng adjustedHeight adjustedStyle
      let building : BuildingMassing :=
        ⟨bst.nextBuildingId, parcel.id, footprint, adjustedHeight, splits.1.1,
          splits.1.2.1, splits.1.2.2, floorCount, adjustedStyle, rf.1, sb.1,
          parcel.id, parcel.zoneType, parcel.zoneDensity, level⟩
      ({ buildings := jset bst.buildings building.id building
         nextBuildingId := bst.nextBuildingId + 1 }, splits.2, some building)

/-- The total height a massing was given *before* the commercial (×1.1) /
industrial (×0.7) zone adjustment, recovered exactly from the stored
(adjusted) total by dividing the factor back out. -/
def preAdjustHeight (b : BuildingMassing) : ℚ :=
  match b.zoneType with
  | .commercial => b.height * 10 / 11
  | .industrial => b.height * 10 / 7
  | _ => b.height

/-! ## Procgen worker request loop (`initializeGenerator`, `self.onmessage`,
source lines 4603–5209)

The procedural layout (`RoadGenerator.generate`) and the block finder
(`CityBlockManager.findCityBlocks`) are deterministic functions of their
inputs (they consult only their arguments and the seeded `mulberry32`
stream — the worker contains no clock or `Math.random` access); the run
model abstracts those two functions as an explicit oracle and threads the
RNG state through them, so every theorem quantifies over that oracle. -/

/-- Source `GenerationConfig`. -/
structure GenerationConfig where
  seed : ℕ
  era : Era
  boundsW : ℚ
  boundsH : ℚ
  gridBias : ℚ
  density : ℚ
  blockSizeMin : ℚ
  blockSizeMax : ℚ
  minIntersectionAngle : ℚ
  centerCount : ℕ
deriving DecidableEq, Repr

/-- Source `initializeGenerator` configuration table (era string prefix
tests `'18…'`, `'191…'`, `'20…'` mapped through `eraIndex`). -/
def configFor (seed : ℕ) (era : Era) : GenerationConfig where
  seed := seed
  era := era
  boundsW := 2000
  boundsH := 2000
  gridBias := if era = .e1890s ∨ era = .e1910s then 3 / 10 else 6 / 10
  density := if era = .e2010s ∨ era = .e2030s then 7 / 10 else 5 / 10
  blockSizeMin := if era = .e1890s ∨ era = .e1910s then 60 else 80
  blockSizeMax := if era = .e1890s ∨ era = .e1910s then 120 else 150
  minIntersectionAngle := 30
  centerCount :=
    if era = .e1890s then 1 else if era = .e2010s ∨ era = .e2030s then 3 else 2

/-- Deterministic-function oracle for the two worker components outside
the modelled fragment: the procedural road generator (consuming RNG
draws) and the bounded-depth cycle extractor filling the block table and
its next block id. -/
structure GenOracle where
  generate : GenerationConfig → ℕ → NState × ℕ
  findBlocks : NState → JMap ℕ Block × ℕ

/-- Integer coding of a road class (source `RoadNetwork.roadClassToInt`,
identical to the worker-local table). -/
def roadClassToInt : RoadClass → ℕ
  | .highway => 0
  | .avenue => 1
  | .street => 2
  | .localR => 3

/-- Integer coding of a road material (source
`RoadNetwork.materialToInt`). -/
def materialToInt : RoadMaterial → ℕ
  | .dirt => 0
  | .cobblestone => 1
  | .asphalt => 2
  | .concrete => 3

/-- Integer coding of a zone type (source
`CityBlockManager.zoneTypeToInt`). -/
def zoneTypeToInt : ZoneType → ℕ
  | .residential => 0
  | .commercial => 1
  | .industrial => 2
  | .noneZ => 3

/-- Integer coding of a zone density (source
`CityBlockManager.zoneDensityToInt`). -/
def zoneDensityToInt : ZoneDensity → ℕ
  | .low => 0
  | .medium => 1
  | .high => 2

/-- Integer coding of a building style (source
`BuildingManager.styleToInt`). -/
def styleToInt : BStyle → ℕ
  | .victorian => 0
  | .artDeco => 1
  | .modern => 2
  | .brutalist => 3
  | .postmodern => 4
  | .contemporary => 5
  | .futuristic => 6

/-- Integer coding of a roof type (source `BuildingManager.roofToInt`). -/
def roofToInt : Roof → ℕ
  | .flat => 0
  | .gable => 1
  | .hip => 2
  | .mansard => 3
  | .pyramid => 4
  | .barrel => 5
  | .sawtooth => 6
  | .green => 7

/-- The four flattened arrays of `RoadNetwork.getTypedArrays`, as exact
rational/natural rows (the typed arrays are zero-initialized, so an edge
skipped for a missing endpoint leaves a zero row at the end; edge widths
are whole metres, truncated into the Uint32 row by the floor). -/
structure NetArrays where
  nodePositions : List ℚ
  nodeConnections : List ℕ
  edgeData : List ℕ
  roadSegments : List ℚ
deriving DecidableEq, Repr

/-- Source `RoadNetwork.getTypedArrays`: node positions `[x, y]` in
insertion order; per node a 9-wide connection row
`[min(degree, 8), first 8 edge ids, zero-padded]`; per resolvable edge a
5-wide data row `[indexOf nodeA, indexOf nodeB, class, material, width]`
and a 6-wide segment row `[ax, ay, bx, by, width, class]` (an edge with a
missing endpoint is skipped, leaving its zero rows at the tail). -/
def getTypedArrays (net : NState) : NetArrays :=
  let keyList := net.nodes.map (fun kv => kv.1)
  let rows :=
    net.edges.foldl
      (fun (acc : List ℕ × List ℚ × ℕ) kv =>
        match jget net.nodes kv.2.nodeA, jget net.nodes kv.2.nodeB with
        | some na, some nb =>
          (acc.1 ++
              [keyList.indexOf kv.2.nodeA, keyList.indexOf kv.2.nodeB,
                roadClassToInt kv.2.roadClass, materialToInt kv.2.material,
                (⌊kv.2.width⌋).toNat],
            acc.2.1 ++
              [na.pos.x, na.pos.y, nb.pos.x, nb.pos.y, kv.2.width,
                (roadClassToInt kv.2.roadClass : ℚ)],
            acc.2.2)
        | _, _ => (acc.1, acc.2.1, acc.2.2 + 1))
      ([], [], 0)
  { nodePositions := (net.nodes.map (fun kv => [kv.2.pos.x, kv.2.pos.y])).flatten
    nodeConnections :=
      (net.nodes.map (fun kv =>
        min kv.2.edges.length 8 ::
          (kv.2.edges.take 8 ++ List.replicate (8 - min kv.2.edges.length 8) 0))).flatten
    edgeData := rows.1 ++ List.replicate (5 * rows.2.2) 0
    roadSegments := rows.2.1 ++ List.replicate (6 * rows.2.2) 0 }

/-- Source `RoadNetwork.getRoadSegments`: one
`(start, end, class, material, width)` row per edge whose two endpoint
nodes resolve, in edge-table insertion order. -/
def getRoadSegments (net : NState) : List (Vec2 × Vec2 × RoadClass × RoadMaterial × ℚ) :=
  net.edges.foldl
    (fun acc kv =>
      match jget net.nodes kv.2.nodeA, jget net.nodes kv.2.nodeB with
      | some na, some nb =>
        acc ++ [(na.pos, nb.pos, kv.2.roadClass, kv.2.material, kv.2.width)]
      | _, _ => acc)
    []

/-- The three flattened arrays of
`CityBlockManager.getParcelsTypedArrays`. -/
structure ParcelArrays where
  parcelData : List ℚ
  parcelVertices : List ℚ
  blockData : List ℚ
deriving DecidableEq, Repr

/-- Source `CityBlockManager.getParcelsTypedArrays`: per parcel a 9-wide
row `[id, zoneType, density, area, frontage, isCorner, centroid.x,
centroid.y, blockId]`, the flattened vertex pairs with a
`(-999999, -999999)` separator after each parcel, and per block a 4-wide
row `[id, area, perimeter, parcelCount]`. -/
def getParcelsTypedArrays (bm : BState) : ParcelArrays :=
  { parcelData :=
      (bm.parcels.map (fun kv =>
        [(kv.2.id : ℚ), (zoneTypeToInt kv.2.zoneType : ℚ),
          (zoneDensityToInt kv.2.zoneDensity : ℚ), kv.2.area, kv.2.frontage,
          if kv.2.isCorner then 1 else 0, kv.2.centroid.x, kv.2.centroid.y,
          (kv.2.blockId : ℚ)])).flatten
    parcelVertices :=
      (bm.parcels.map (fun kv =>
        (kv.2.vertices.map (fun v => [v.x, v.y])).flatten ++ [-999999, -999999])).flatten
    blockData :=
      (bm.blocks.map (fun kv =>
        [(kv.2.id : ℚ), kv.2.area, kv.2.perimeter, (kv.2.parcels.length : ℚ)])).flatten }

/-- Block detail rows of the `get-blocks` reply: `(id, vertices, holes,
area, perimeter, parcelCount, roadEdges)`. -/
def blockDetail (bm : BState) :
    List (ℕ × List Vec2 × List (List Vec2) × ℚ × ℚ × ℕ × List ℕ) :=
  bm.blocks.map (fun kv =>
    (kv.2.id, kv.2.vertices, kv.2.holes, kv.2.area, kv.2.perimeter,
      kv.2.parcels.length, kv.2.roadEdges))

/-- Source `CityBlockManager.findParcelAt`: the first parcel in insertion
order whose polygon contains the point. -/
def findParcelAt (bm : BState) (p : Vec2) : Option Parcel :=
  bm.parcels.findSome? (fun kv =>
    if pointInPolygon p kv.2.vertices then some kv.2 else none)

/-- The three-stage parcel lookup of the `generate-building-for-zone`
handler: containment, then first centroid within 5 m (squared: 25), then
the strictly closest centroid if within 100 m (squared: 10000) —
square-root distance comparisons taken in squared form. -/
def findTargetParcel (bm : BState) (pos : Vec2) : Option Parcel :=
  match findParcelAt bm pos with
  | some p => some p
  | none =>
    match (bm.parcels.map (fun kv => kv.2)).find?
        (fun p => decide (distSq (polygonCentroid p.vertices) pos < 25)) with
    | some p => some p
    | none =>
      let closest :=
        (bm.parcels.map (fun kv => kv.2)).foldl
          (fun (acc : Option (Parcel × ℚ)) p =>
            let dSq := distSq (polygonCentroid p.vertices) pos
            match acc with
            | none => some (p, dSq)
            | some q => if dSq < q.2 then some (p, dSq) else acc)
          none
      match closest with
      | some q => if q.2 < 10000 then some q.1 else none
      | none => none

/-- Building mesh (source `BuildingMesh`), with the five arrays as exact
rational/natural lists. -/
structure BMesh where
  meshPositions : List ℚ
  meshNormals : List ℚ
  meshUvs : List ℚ
  meshIndices : List ℕ
  materialIds : List ℕ
  lod : ℕ
deriving DecidableEq, Repr

/-- Source `BuildingMeshGenerator.generateMesh` (the shipped simplified
box path — the component generators below it are never called): the
axis-aligned bounding box of the footprint extruded to the stored height
(`20` when the stored height is `0`, the JS `||` fallback), with fixed
up-normals, zero UVs, the 12 box triangles and zero material ids.  The
source folds the bounds from infinity; every stored massing keeps at
least 3 footprint vertices, and the model folds from the head vertex
(choosing an all-zero box for the unreachable empty footprint). -/
def generateMesh (massing : BuildingMassing) (lod : ℕ) : BMesh :=
  let bounds : ℚ × ℚ × ℚ × ℚ :=
    match massing.footprint with
    | [] => (0, 0, 0, 0)
    | v :: rest =>
      rest.foldl
        (fun (acc : ℚ × ℚ × ℚ × ℚ) w =>
          (min acc.1 w.x, max acc.2.1 w.x, min acc.2.2.1 w.y, max acc.2.2.2 w.y))
        (v.x, v.x, v.y, v.y)
  let minX := bounds.1
  let maxX := bounds.2.1
  let minY := bounds.2.2.1
  let maxY := bounds.2.2.2
  let height := if massing.height = 0 then 20 else massing.height
  { meshPositions :=
      [minX, minY, 0, maxX, minY, 0, maxX, maxY, 0, minX, maxY, 0,
        minX, minY, height, maxX, minY, height, maxX, maxY, height, minX, maxY, height]
    meshNormals := (List.replicate 8 [(0 : ℚ), 0, 1]).flatten
    meshUvs := List.replicate 16 0
    meshIndices :=
      [0, 2, 1, 0, 3, 2, 4, 5, 6, 4, 6, 7, 0, 1, 5, 0, 5, 4,
        2, 3, 7, 2, 7, 6, 0, 4, 7, 0, 7, 3, 1, 2, 6, 1, 6, 5]
    materialIds := List.replicate 12 0
    lod := lod }

/-- Source `BuildingManager.getBuildingMesh`: look the building up, serve
the `(id, lod)`-keyed cache entry if present, else generate and cache.
Returns the updated cache and the mesh (none for an unknown id). -/
def getBuildingMesh (bst : BuildState) (cache : JMap (ℕ × ℕ) BMesh)
    (buildingId lod : ℕ) : JMap (ℕ × ℕ) BMesh × Option BMesh :=
  match jget bst.buildings buildingId with
  | none => (cache, none)
  | some b =>
    match jget cache (buildingId, lod) with
    | some m => (cache, some m)
    | none =>
      let m := generateMesh b lod
      (jset cache (buildingId, lod) m, some m)

/-- Source `BuildingManager.getBuildingMeshForParcel`: the first building
whose `parcelId` matches, through the same cache; returns the updated
cache and `(buildingId, mesh)`. -/
def getBuildingMeshForParcel (bst : BuildState) (cache : JMap (ℕ × ℕ) BMesh)
    (parcelId lod : ℕ) : JMap (ℕ × ℕ) BMesh × Option (ℕ × BMesh) :=
  match bst.buildings.findSome?
      (fun kv => if kv.2.parcelId = parcelId then some kv.2 else none) with
  | none => (cache, none)
  | some b =>
    match jget cache (b.id, lod) with
    | some m => (cache, some (b.id, m))
    | none =>
      let m := generateMesh b lod
      (jset cache (b.id, lod) m, some (b.id, m))

/-- The packed reply of `BuildingManager.getAllBuildingMeshes`: `meshData`
is all positions then all indices (as floats), `buildingOffsets` holds
the interleaved per-building position and index offsets, `buildingInfo`
the 5-wide `[id, parcelId, height, style, roofType]` rows. -/
structure MeshBundle where
  meshData : List ℚ
  buildingOffsets : List ℕ
  buildingInfo : List ℚ
deriving DecidableEq, Repr

/-- The packing loop of `getAllBuildingMeshes` over the collected
meshes. -/
def packMeshes (ms : List BMesh) : List ℚ × List ℕ :=
  let offs :=
    (ms.foldl
      (fun (acc : List ℕ × ℕ × ℕ) m =>
        (acc.1 ++ [acc.2.1, acc.2.2],
          acc.2.1 + m.meshPositions.length, acc.2.2 + m.meshIndices.length))
      ([], 0, 0)).1
  ((ms.map (fun m => m.meshPositions)).flatten ++
      (ms.map (fun m => m.meshIndices.map (fun i => (i : ℚ)))).flatten,
    offs)

/-- Source `BuildingManager.getAllBuildingMeshes`: walk the building table
in insertion order, pull every mesh through the cache, and pack. -/
def getAllBuildingMeshes (bst : BuildState) (cache : JMap (ℕ × ℕ) BMesh)
    (lod : ℕ) : JMap (ℕ × ℕ) BMesh × MeshBundle :=
  let step :=
    bst.buildings.foldl
      (fun (acc : JMap (ℕ × ℕ) BMesh × List BMesh × List ℚ) kv =>
        let r := getBuildingMesh bst acc.1 kv.2.id lod
        match r.2 with
        | some m =>
          (r.1, acc.2.1 ++ [m],
            acc.2.2 ++
              [(kv.2.id : ℚ), (kv.2.parcelId : ℚ), kv.2.height,
                (styleToInt kv.2.style : ℚ), (roofToInt kv.2.roofType : ℚ)])
        | none => (r.1, acc.2.1, acc.2.2))
      (cache, [], [])
  let pack := packMeshes step.2.1
  (step.1, ⟨pack.1, pack.2, step.2.2⟩)

/-- Source `BuildingManager.generateBuildings` (the bulk path, a sibling
of `generateBuildingForParcel` in the source with its own copy of the
logic): per parcel RNG seeded `parcel.id` (no level term), level fixed at
1, no level height scaling; skips `none` zones and sub-3-vertex
footprints; the vertical split draws from the shared stream per emitted
building. -/
def generateBuildings (O : MathOracle) (bst : BuildState) (gRng : ℕ)
    (parcels : List Parcel) (era : Era) : BuildState × ℕ × List BuildingMassing :=
  parcels.foldl
    (fun (acc : BuildState × ℕ × List BuildingMassing) parcel =>
      if parcel.zoneType = .noneZ then acc
      else
        let sty := getStyleForEra era parcel.id
        let rf := getRoofForEra era parcel.zoneDensity sty.2
        let sb := getSetback parcel.zoneDensity rf.2
        let footprint := offsetPolygon O parcel.vertices (-sb.1)
        if footprint.length < 3 then acc
        else
          let heightRange := heightByDensity parcel.zoneDensity
          let d := mulberryStep sb.2
          let height := heightRange.1 + d.2 * (heightRange.2 - heightRange.1)
          let floorCount := max 1 (jsRound (height / 3))
          let adjustedHeight :=
            match parcel.zoneType with
            | .commercial => height * 11 / 10
            | .industrial => height * 7 / 10
            | _ => height
          let adjustedStyle :=
            match parcel.zoneType with
            | .industrial => if eraIndex .e1950s ≤ eraIndex era then .modern else sty.1
            | _ => sty.1
          let splits := splitVertical acc.2.1 adjustedHeight adjustedStyle
          let b : BuildingMassing :=
            ⟨acc.1.nextBuildingId, parcel.id, footprint, adjustedHeight, splits.1.1,
              splits.1.2.1, splits.1.2.2, floorCount, adjustedStyle, rf.1, sb.1,
              parcel.id, parcel.zoneType, parcel.zoneDensity, 1⟩
          (⟨jset acc.1.buildings b.id b, acc.1.nextBuildingId + 1⟩, splits.2,
            acc.2.2 ++ [b]))
    (bst, gRng, [])

/-- The `get-stats` computation: node and edge counts, the oracle-sqrt
total segment length, the guarded average-block-size ratio, block and
parcel counts. -/
def networkStats (O : MathOracle) (net : NState) (bm : BState) :
    ℕ × ℕ × ℚ × ℚ × ℕ × ℕ :=
  let segs := getRoadSegments net
  let totalLength := segs.foldl (fun s r => s + O.sqrtQ (distSq r.1 r.2.1)) 0
  (net.nodes.length, net.edges.length, totalLength,
    if 0 < totalLength then 4000000 / (net.edges.length : ℚ) else 0,
    bm.blocks.length, bm.parcels.length)

/-- Worker state after `boot` (all managers initialized, as
`initializeGenerator` guarantees before any further message is
processed); the mesh cache lives in the `BuildingManager` of the source
and is keyed by `(buildingId, lod)`. -/
structure WorkerState where
  rng : ℕ
  currentSeed : ℕ
  currentEra : Era
  network : NState
  blockMgr : BState
  buildMgr : BuildState
  meshCache : JMap (ℕ × ℕ) BMesh
  welder : WState
deriving Repr

/-- Source `initializeGenerator`: reseed the RNG with the seed, generate
the network (advancing the RNG), find the city blocks, and re-create the
block, building (with its mesh cache) and intersection managers. -/
def initializeGenerator (G : GenOracle) (seed : ℕ) (era : Era) : WorkerState :=
  let config := configFor seed era
  let gen := G.generate config seed
  let blocks := G.findBlocks gen.1
  { rng := gen.2
    currentSeed := seed
    currentEra := era
    network := gen.1
    blockMgr := ⟨blocks.1, [], blocks.2, 0⟩
    buildMgr := BuildState.empty
    meshCache := []
    welder := WState.empty }

/-- The worker's request messages (source `self.onmessage` cases), with
the source's field defaults made explicit: `boot` coerces a falsy seed to
1 and a missing era to 1890s, the LOD fields default to 1 where the
source writes `msg.lod !== undefined ? msg.lod : 1` or `lod = 1`, and
`generate-building-for-zone` coerces a falsy level to 1. -/
inductive Request where
  | boot (seed : ℕ) (era : Option Era)
  | shuffleSeed (seed : ℕ)
  | setEra (era : Era)
  | paintRoad (start stop : Vec2) (roadClass : RoadClass)
  | getRoads
  | getStats
  | paintZoneReq (polygon : List Vec2) (zoneType : ZoneType) (zoneDensity : ZoneDensity)
      (method : Option SubMethod)
  | getParcels
  | getBlocks
  | clearZones
  | generateBuildingForZone (zoneId : ℕ) (position : Vec2) (level : ℕ)
  | generateBuildingsReq (lod : Option ℕ)
  | getBuildings (lod : Option ℕ)
  | getBuildingMeshReq (buildingId : ℕ) (lod : Option ℕ)
  | setBuildingLod (lod : ℕ)
  | regenerateWithZone (zoneRequest : Option ZonePaintRequest) (lod : Option ℕ)
deriving Repr

/-- Road-class integer coding of the paint-road handler (the worker-local
copy of the table). -/
def classCode : RoadClass → ℕ
  | .highway => 0
  | .avenue => 1
  | .street => 2
  | .localR => 3

/-- Block summary tuple `(id, vertices, area, parcelCount)` used by the
worker replies. -/
def blockSummary (bm : BState) : List (ℕ × List Vec2 × ℚ × ℕ) :=
  bm.blocks.map (fun kv => (kv.2.id, kv.2.vertices, kv.2.area, kv.2.parcels.length))

/-- Building summary row `(id, parcelId, height, floorCount, style,
roofType)` of the building replies. -/
def buildingRow (b : BuildingMassing) : ℕ × ℕ × ℚ × ℤ × BStyle × Roof :=
  (b.id, b.parcelId, b.height, b.floorCount, b.style, b.roofType)

/-- Reply payloads of the handlers (structured views of the posted
messages; `bootRoads` is the `roads-generated` post of the boot,
shuffle-seed and set-era handlers, `roadsGenerated` the welder-backed one
of `get-roads`). -/
inductive Reply where
  | bootRoads (arrays : NetArrays)
      (segments : List (Vec2 × Vec2 × RoadClass × RoadMaterial × ℚ))
      (blocks : List (ℕ × List Vec2 × ℚ × ℕ))
  | roadPainted (segments : List WSeg) (intersections : List WInter)
  | roadsGenerated (segments : List WSeg) (intersections : List WInter)
  | networkStatsReply (nodeCount edgeCount : ℕ) (totalRoadLength averageBlockSize : ℚ)
      (blockCount parcelCount : ℕ)
  | zonePainted (affectedParcelIds : List ℕ) (affectedParcels : List Parcel)
      (parcels : ParcelArrays) (blocks : List (ℕ × List Vec2 × ℚ × ℕ))
  | parcelsData (parcels : ParcelArrays) (parcelList : List Parcel)
      (blocks : List (ℕ × List Vec2 × ℚ × ℕ))
  | blocksData (blocks : List (ℕ × List Vec2 × List (List Vec2) × ℚ × ℚ × ℕ × List ℕ))
  | zonesCleared
  | buildingSpawned (zoneId parcelId : ℕ) (building : ℕ × ℕ × ℚ × ℤ × BStyle × Roof)
      (meshData : Option (ℕ × BMesh)) (lod : ℕ)
  | buildingsGenerated (buildings : List (ℕ × ℕ × ℚ × ℤ × BStyle × Roof))
      (meshData : MeshBundle) (lod : ℕ)
  | buildingsData (buildings : List (ℕ × ℕ × ℚ × ℤ × BStyle × Roof))
      (meshData : MeshBundle) (lod : ℕ)
  | buildingMeshReply (buildingId : ℕ) (mesh : Option BMesh) (lod : ℕ)
  | buildingLodChanged (meshData : MeshBundle) (lod : ℕ)
  | buildingsRegenerated (buildings : List (ℕ × ℕ × ℚ × ℤ × BStyle × Roof))
      (meshData : MeshBundle) (lod : ℕ) (parcels : ParcelArrays)
deriving Repr

/-- One step of the worker message loop (source `self.onmessage`) over
every handled message type.  A handler that posts nothing (the
`generate-building-for-zone` early returns) yields an empty reply
list. -/
def workerStep (G : GenOracle) (O : MathOracle) (ws : WorkerState) :
    Request → WorkerState × List Reply
  | .boot seed era =>
    let ws' := initializeGenerator G (if seed = 0 then 1 else seed) (era.getD .e1890s)
    (ws', [.bootRoads (getTypedArrays ws'.network) (getRoadSegments ws'.network)
      (blockSummary ws'.blockMgr)])
  | .shuffleSeed seed =>
    let ws' := initializeGenerator G seed ws.currentEra
    (ws', [.bootRoads (getTypedArrays ws'.network) (getRoadSegments ws'.network)
      (blockSummary ws'.blockMgr)])
  | .setEra era =>
    let ws' := initializeGenerator G ws.currentSeed era
    (ws', [.bootRoads (getTypedArrays ws'.network) (getRoadSegments ws'.network)
      (blockSummary ws'.blockMgr)])
  | .paintRoad start stop roadClass =>
    let width := roadWidth roadClass
    let add := addSegment O ws.welder start stop width (classCode roadClass)
    let ws' := { ws with welder := add.1 }
    (ws', [.roadPainted (add.1.segments.map (fun kv => kv.2))
      (add.1.intersections.map (fun kv => kv.2))])
  | .getRoads =>
    (ws, [.roadsGenerated (ws.welder.segments.map (fun kv => kv.2))
      (ws.welder.intersections.map (fun kv => kv.2))])
  | .getStats =>
    let s := networkStats O ws.network ws.blockMgr
    (ws, [.networkStatsReply s.1 s.2.1 s.2.2.1 s.2.2.2.1 s.2.2.2.2.1 s.2.2.2.2.2])
  | .paintZoneReq polygon zoneType zoneDensity method =>
    let req : ZonePaintRequest := ⟨polygon, zoneType, zoneDensity, some (method.getD .skeleton)⟩
    let pz := paintZone O ws.blockMgr ws.rng ws.network req
    let ids := pz.2.2.map (fun p => p.id)
    let ws' := { ws with blockMgr := pz.1, rng := pz.2.1 }
    (ws', [.zonePainted ids
      ((pz.1.parcels.map (fun kv => kv.2)).filter (fun p => decide (p.id ∈ ids)))
      (getParcelsTypedArrays pz.1) (blockSummary pz.1)])
  | .getParcels =>
    (ws, [.parcelsData (getParcelsTypedArrays ws.blockMgr)
      (ws.blockMgr.parcels.map (fun kv => kv.2)) (blockSummary ws.blockMgr)])
  | .getBlocks =>
    (ws, [.blocksData (blockDetail ws.blockMgr)])
  | .clearZones =>
    let blocks := G.findBlocks ws.network
    let ws' :=
      { ws with
          blockMgr := ⟨blocks.1, [], blocks.2, 0⟩
          buildMgr := BuildState.empty
          meshCache := [] }
    (ws', [.zonesCleared])
  | .generateBuildingForZone zoneId position level =>
    match findTargetParcel ws.blockMgr position with
    | none => (ws, [])
    | some parcel =>
      let lv := if level = 0 then 1 else level
      let gen := generateBuildingForParcel O ws.buildMgr ws.rng parcel ws.currentEra lv
      let ws' := { ws with buildMgr := gen.1, rng := gen.2.1 }
      match gen.2.2 with
      | none => (ws', [])
      | some b =>
        let mr := getBuildingMeshForParcel ws'.buildMgr ws'.meshCache parcel.id 1
        ({ ws' with meshCache := mr.1 },
          [.buildingSpawned zoneId parcel.id (buildingRow b) mr.2 1])
  | .generateBuildingsReq lodOpt =>
    let lod := lodOpt.getD 1
    let gen := generateBuildings O ws.buildMgr ws.rng
      (ws.blockMgr.parcels.map (fun kv => kv.2)) ws.currentEra
    let ws' := { ws with buildMgr := gen.1, rng := gen.2.1 }
    let am := getAllBuildingMeshes ws'.buildMgr ws'.meshCache lod
    ({ ws' with meshCache := am.1 },
      [.buildingsGenerated (gen.2.2.map buildingRow) am.2 lod])
  | .getBuildings lodOpt =>
    let lod := lodOpt.getD 1
    let am := getAllBuildingMeshes ws.buildMgr ws.meshCache lod
    ({ ws with meshCache := am.1 },
      [.buildingsData ((ws.buildMgr.buildings.map (fun kv => kv.2)).map buildingRow)
        am.2 lod])
  | .getBuildingMeshReq buildingId lodOpt =>
    let lod := lodOpt.getD 1
    let r := getBuildingMesh ws.buildMgr ws.meshCache buildingId lod
    ({ ws with meshCache := r.1 }, [.buildingMeshReply buildingId r.2 lod])
  | .setBuildingLod lod =>
    let am := getAllBuildingMeshes ws.buildMgr ws.meshCache lod
    ({ ws with meshCache := am.1 }, [.buildingLodChanged am.2 lod])
  | .regenerateWithZone zoneRequest lodOpt =>
    let lod := lodOpt.getD 1
    let ws1 :=
      match zoneRequest with
      | some r =>
        let pz := paintZone O ws.blockMgr ws.rng ws.network r
        { ws with blockMgr := pz.1, rng := pz.2.1 }
      | none => ws
    let ws2 := { ws1 with buildMgr := BuildState.empty, meshCache := [] }
    let gen := generateBuildings O ws2.buildMgr ws2.rng
      (ws2.blockMgr.parcels.map (fun kv => kv.2)) ws2.currentEra
    let ws3 := { ws2 with buildMgr := gen.1, rng := gen.2.1 }
    let am := getAllBuildingMeshes ws3.buildMgr ws3.meshCache lod
    ({ ws3 with meshCache := am.1 },
      [.buildingsRegenerated (gen.2.2.map buildingRow) am.2 lod
        (getParcelsTypedArrays ws3.blockMgr)])

/-- The worker run: `boot` with the given seed and era, then process the
request sequence in arrival order, collecting the replies. -/
def workerRun (G : GenOracle) (O : MathOracle) (seed : ℕ) (era : Era)
    (reqs : List Request) : List Reply :=
  (reqs.foldl
    (fun (acc : WorkerState × List Reply) req =>
      let s := workerStep G O acc.1 req
      (s.1, acc.2 ++ s.2))
    (initializeGenerator G seed era, [])).2

/-! ## Concrete inputs used by the closed evaluations -/

/-- A residential medium-density parcel on a 30 m square, as produced by
a zone paint. -/
def testParcel : Parcel :=
  ⟨0, [⟨0, 0⟩, ⟨30, 0⟩, ⟨30, 30⟩, ⟨0, 30⟩], .residential, .medium, 900, 30, -1, false,
    ⟨15, 15⟩, 0⟩

/-- A commercial medium-density parcel on the same square, exercising the
zone-adjusted massing path. -/
def testParcelC : Parcel :=
  ⟨1, [⟨0, 0⟩, ⟨30, 0⟩, ⟨30, 30⟩, ⟨0, 30⟩], .commercial, .medium, 900, 30, -1, false,
    ⟨15, 15⟩, 0⟩

/-- Road graph after `addNode(46, 0)`. -/
def snapTrace1 : NState :=
  (addNode NState.empty 46 0).1

/-- Road graph after `addNode(46, 0)` then `addNode(62, 0)` (16 m apart,
so both nodes are created). -/
def snapTrace2 : NState :=
  (addNode snapTrace1 62 0).1

/-- Road graph holding the single node 0 at the origin. -/
def selfLoopState : NState :=
  (addNode NState.empty 0 0).1

/-- Result of `addEdge(0, 0, street, dirt)` on that graph. -/
def selfLoopResult : NState × Option ℕ :=
  addEdge defaultOracle selfLoopState 0 0 .street .dirt

/-- Massing generation on the test parcel (global RNG state 7, era 1890s,
level 1). -/
def massingTrace : BuildState × ℕ × Option BuildingMassing :=
  generateBuildingForParcel defaultOracle BuildState.empty 7 testParcel .e1890s 1

/-- Paint request on a thin triangle of area 100 m² (base 100 m, height
2 m): every frontage strip clips to less than 50 m². -/
def thinTriangleReq : ZonePaintRequest :=
  ⟨[⟨0, 0⟩, ⟨100, 0⟩, ⟨0, 2⟩], .residential, .low, some .skeleton⟩

/-- Standalone paint of the thin triangle on an empty manager. -/
def thinTriangleRes : BState × ℕ × List Parcel :=
  paintZone defaultOracle BState.empty 1 NState.empty thinTriangleReq

/-- Skeleton paint request on a 45 m square (runs the standalone path and
creates a virtual block holding the square). -/
def setupReq : ZonePaintRequest :=
  ⟨[⟨0, 0⟩, ⟨45, 0⟩, ⟨45, 45⟩, ⟨0, 45⟩], .residential, .low, some .skeleton⟩

/-- Voronoi paint request on the same square. -/
def vorReq : ZonePaintRequest :=
  ⟨[⟨0, 0⟩, ⟨45, 0⟩, ⟨45, 45⟩, ⟨0, 45⟩], .residential, .low, some .voronoi⟩

/-- Manager state after the skeleton setup paint (RNG untouched at
12345). -/
def paintState1 : BState × ℕ × List Parcel :=
  paintZone defaultOracle BState.empty 12345 NState.empty setupReq

/-- First voronoi paint over the square block. -/
def paintVor1 : BState × ℕ × List Parcel :=
  paintZone defaultOracle paintState1.1 paintState1.2.1 NState.empty vorReq

/-- Second, immediately repeated voronoi paint. -/
def paintVor2 : BState × ℕ × List Parcel :=
  paintZone defaultOracle paintVor1.1 paintVor1.2.1 NState.empty vorReq

/-- Welder after `addSegment((0,0),(100,0), 12, street)`. -/
def weldTrace1 : WState :=
  (addSegment defaultOracle WState.empty ⟨0, 0⟩ ⟨100, 0⟩ 12 2).1

/-- Welder after also adding `((100,0),(100,100))`: intersection record 0
at `(100, 0)` lists segments 0 and 1. -/
def weldTrace2 : WState :=
  (addSegment defaultOracle weldTrace1 ⟨100, 0⟩ ⟨100, 100⟩ 12 2).1

/-- Welder after also adding `((50,-50),(50,50))`, which crosses segment 0
mid-span at `(50, 0)` and splits it. -/
def weldTrace3 : WState :=
  (addSegment defaultOracle weldTrace2 ⟨50, -50⟩ ⟨50, 50⟩ 12 2).1

/-- The second welder trace with an extra stored segment 5 from `(100,0)`
to `(200,0)` (as the segment table holds between the split and
intersection-refresh phases of an `addSegment`). -/
def weldWitnessState : WState :=
  { weldTrace2 with segments := jset weldTrace2.segments 5 ⟨5, ⟨100, 0⟩, ⟨200, 0⟩, 12, 2⟩ }

/-- The refreshed intersection record at `(100, 0)` listing segments 0, 1
and 5. -/
def weldWitnessRec : WInter :=
  ⟨0, ⟨100, 0⟩, [0, 1, 5], .tK, 0, 9⟩

/-- Consecutive sub-segment chain from `a` to `b` through the listed
interior points: the shape `splitSegmentAtPoints` is expected to
produce. -/
def chainFrom (a b : Vec2) : List Vec2 → List (Vec2 × Vec2)
  | [] => [(a, b)]
  | x :: xs => (a, x) :: chainFrom x b xs

/-- Well-formedness of a road-graph state, maintained by `addNode`: node
keys are unique and below the id counter, and every node is registered in
the spatial-grid bucket of its position. -/
structure NWellFormed (st : NState) : Prop where
  nodupKeys : (st.nodes.map (·.1)).Nodup
  indexed : ∀ kv ∈ st.nodes, kv.1 ∈ ((jget st.spatial (gridKey kv.2.pos.x kv.2.pos.y)).getD [])
  keysBounded : ∀ kv ∈ st.nodes, kv.1 < st.nextNodeId

/-- Acceptance test shared by both parcel emitters of `paintZone`: a
polygon is recorded exactly when it keeps at least 3 vertices and at
least 50 m² of area. -/
def keepParcelPoly (verts : List Vec2) : Bool :=
  decide (¬ verts.length < 3) && decide (¬ polygonArea verts < 50)

/-- Skeleton-method polygon emission of one `paintZone` block step, as a
function of the only block data the step reads: the vertex loop and the
road-edge id list. -/
def skelBlockEmitP (O : MathOracle) (net : NState) (req : ZonePaintRequest)
    (verts : List Vec2) (roadEdges : List ℕ) : List (List Vec2) :=
  if polygonsIntersect verts req.polygon then
    (subdivideWithSkeleton O verts req.zoneType req.zoneDensity
      (bestFrontageIndex net ⟨0, verts, [], [], 0, 0, roadEdges⟩)).filter keepParcelPoly
  else []

/-- Projection of a block-table entry to the data `paintZone`'s block loop
reads and preserves: key, vertex loop, road-edge ids. -/
def bproj (pr : ℕ × Block) : ℕ × List Vec2 × List ℕ :=
  (pr.1, pr.2.vertices, pr.2.roadEdges)

/-- A trivial generation oracle for closed evaluations: an empty network
and block table, RNG passed through. -/
def trivialGen : GenOracle :=
  ⟨fun _ seed => (NState.empty, seed), fun _ => ([], 0)⟩

/-! ## General lemmas about the embedding's containers -/

theorem jget_jset_self {α β : Type} [DecidableEq α] (m : JMap α β) (k : α) (v : β) :
    jget (jset m k v) k = some v := by
  induction m with
  | nil => simp [jset, jget]
  | cons kv rest ih =>
    by_cases h : kv.1 = k
    · simp [jset, jget, h]
    · simp [jset, jget, h, ih]

theorem foldl_length_grow {α β : Type} (body : List α → β → List α)
    (h : ∀ acc i, (body acc i).length = acc.length + 1) (l : List β) :
    ∀ init : List α, (l.foldl body init).length = init.length + l.length := by
  induction l with
  | nil => intro init; simp
  | cons b rest ih =>
    intro init
    simp only [List.foldl_cons, ih (body init b), h init b, List.length_cons]
    omega

theorem jget_jset_ne {α β : Type} [DecidableEq α] (m : JMap α β) (k k' : α) (v : β)
    (h : ¬ k = k') : jget (jset m k v) k' = jget m k' := by
  induction m with
  | nil => simp [jset, jget, h]
  | cons kv rest ih =>
    by_cases hk : kv.1 = k
    · simp [jset, jget, hk, h]
    · simp only [jset, hk, if_neg hk]
      by_cases hk' : kv.1 = k'
      · simp [jget, hk']
      · simp [jget, hk', ih]

theorem mem_of_jget_eq_some {α β : Type} [DecidableEq α] {m : JMap α β} {k : α} {v : β}
    (h : jget m k = some v) : (k, v) ∈ m := by
  induction m with
  | nil => simp [jget] at h
  | cons kv rest ih =>
    by_cases hk : kv.1 = k
    · simp only [jget, if_pos hk] at h
      cases h
      have hkv : (k, kv.2) = kv := by
        obtain ⟨k1, v1⟩ := kv
        cases hk
        rfl
      rw [hkv]
      exact List.mem_cons_self _ _
    · simp only [jget, if_neg hk] at h
      exact List.mem_cons_of_mem _ (ih h)

theorem jget_eq_some_of_mem_nodup {α β : Type} [DecidableEq α] {m : JMap α β} {k : α}
    {v : β} (hnd : (m.map (·.1)).Nodup) (hm : (k, v) ∈ m) : jget m k = some v := by
  induction m with
  | nil => simp at hm
  | cons kv rest ih =>
    simp only [List.map_cons, List.nodup_cons] at hnd
    rcases List.mem_cons.mp hm with h | h
    · subst h
      simp [jget]
    · have hk : ¬ kv.1 = k := by
        intro he
        exact hnd.1 (he ▸ List.mem_map_of_mem (·.1) h)
      simp only [jget, if_neg hk]
      exact ih hnd.2 h

theorem jset_eq_append_of_not_mem {α β : Type} [DecidableEq α] {m : JMap α β} {k : α}
    (v : β) (h : k ∉ m.map (·.1)) : jset m k v = m ++ [(k, v)] := by
  induction m with
  | nil => simp [jset]
  | cons kv rest ih =>
    simp only [List.map_cons, List.mem_cons, not_or] at h
    have hk : ¬ kv.1 = k := fun he => h.1 he.symm
    simp [jset, hk, ih h.2]

theorem keys_jset_of_mem {α β : Type} [DecidableEq α] {m : JMap α β} {k : α} (v : β)
    (h : k ∈ m.map (·.1)) : (jset m k v).map (·.1) = m.map (·.1) := by
  induction m with
  | nil => simp at h
  | cons kv rest ih =>
    by_cases hk : kv.1 = k
    · simp [jset, hk]
    · simp only [List.map_cons, List.mem_cons] at h
      rcases h with h | h
      · exact absurd h.symm hk
      · simp [jset, hk, ih h]

theorem foldl_append_eq_join {α β : Type} (l : List β) (g : β → List α) :
    ∀ acc : List α, l.foldl (fun a i => a ++ g i) acc = acc ++ (l.map g).flatten := by
  induction l with
  | nil => intro acc; simp
  | cons b rest ih => intro acc; simp [ih]

/-- Membership characterization of the spatial scan: anything stored in a
bucket of a scanned cell appears in the `getNearby` result. -/
theorem mem_gridGetNearby {g : JMap (ℤ × ℤ) (List ℕ)} {x y r : ℚ} {k : ℕ} {dx dy : ℤ}
    {l : List ℕ} (hdx : dx ∈ offsetRange (⌈r / 50⌉).toNat)
    (hdy : dy ∈ offsetRange (⌈r / 50⌉).toNat)
    (hb : jget g ((gridKey x y).1 + dx, (gridKey x y).2 + dy) = some l) (hk : k ∈ l) :
    k ∈ gridGetNearby g x y r := by
  unfold gridGetNearby
  have hstep :
      ∀ (dx' : ℤ) (acc : List ℕ),
        (offsetRange (⌈r / 50⌉).toNat).foldl
            (fun (acc : List ℕ) (dy' : ℤ) =>
              match jget g ((gridKey x y).1 + dx', (gridKey x y).2 + dy') with
              | some l => acc ++ l
              | none => acc)
            acc =
          acc ++
            ((offsetRange (⌈r / 50⌉).toNat).map
              (fun dy' => (jget g ((gridKey x y).1 + dx', (gridKey x y).2 + dy')).getD [])).flatten := by
    intro dx' acc
    have h1 :
        (fun (acc : List ℕ) (dy' : ℤ) =>
            match jget g ((gridKey x y).1 + dx', (gridKey x y).2 + dy') with
            | some l => acc ++ l
            | none => acc) =
          fun acc dy' => acc ++ ((jget g ((gridKey x y).1 + dx', (gridKey x y).2 + dy')).getD []) := by
      funext acc dy'
      cases jget g ((gridKey x y).1 + dx', (gridKey x y).2 + dy') <;> simp
    rw [h1, foldl_append_eq_join]
  have houter :
      ∀ (ds : List ℤ) (acc : List ℕ), k ∈ acc →
        k ∈ ds.foldl
          (fun (acc : List ℕ) (dx' : ℤ) =>
            (offsetRange (⌈r / 50⌉).toNat).foldl
              (fun (acc : List ℕ) (dy' : ℤ) =>
                match jget g ((gridKey x y).1 + dx', (gridKey x y).2 + dy') with
                | some l => acc ++ l
                | none => acc)
              acc)
          acc := by
    intro ds
    induction ds with
    | nil => intro acc h; exact h
    | cons d rest ih =>
      intro acc h
      apply ih
      dsimp only
      rw [hstep]
      exact List.mem_append_left _ h
  have hin :
      ∀ (ds : List ℤ) (acc : List ℕ), dx ∈ ds →
        k ∈ ds.foldl
          (fun (acc : List ℕ) (dx' : ℤ) =>
            (offsetRange (⌈r / 50⌉).toNat).foldl
              (fun (acc : List ℕ) (dy' : ℤ) =>
                match jget g ((gridKey x y).1 + dx', (gridKey x y).2 + dy') with
                | some l => acc ++ l
                | none => acc)
              acc)
          acc := by
    intro ds
    induction ds with
    | nil => intro acc h; simp at h
    | cons d rest ih =>
      intro acc h
      rcases List.mem_cons.mp h with h | h
      · subst h
        refine houter rest _ ?_
        dsimp only
        rw [hstep]
        apply List.mem_append_right
        apply List.mem_flatten.mpr
        refine ⟨l, ?_, hk⟩
        have : (jget g ((gridKey x y).1 + dx, (gridKey x y).2 + dy)).getD [] = l := by
          rw [hb]
          rfl
        rw [← this]
        exact List.mem_map_of_mem _ hdy
      · exact ih _ h
  exact hin _ [] hdx

/-- Floor quotients by 50 of points less than 50 apart differ by at most
one. -/
theorem floor_div50_close {a b : ℚ} (h : |b - a| < 50) :
    ⌊b / 50⌋ - ⌊a / 50⌋ = -1 ∨ ⌊b / 50⌋ - ⌊a / 50⌋ = 0 ∨ ⌊b / 50⌋ - ⌊a / 50⌋ = 1 := by
  rcases abs_lt.mp h with ⟨h1, h2⟩
  have hub : ⌊b / 50⌋ ≤ ⌊a / 50⌋ + 1 := by
    have : b / 50 ≤ a / 50 + 1 := by linarith
    calc ⌊b / 50⌋ ≤ ⌊a / 50 + 1⌋ := Int.floor_le_floor this
    _ = ⌊a / 50 + (1 : ℤ)⌋ := by norm_num
    _ = ⌊a / 50⌋ + 1 := Int.floor_add_int _ _
  have hlb : ⌊a / 50⌋ - 1 ≤ ⌊b / 50⌋ := by
    have : a / 50 - 1 ≤ b / 50 := by linarith
    calc ⌊a / 50⌋ - 1 = ⌊a / 50 - (1 : ℤ)⌋ := (Int.floor_sub_int _ _).symm
    _ = ⌊a / 50 - 1⌋ := by norm_num
    _ ≤ ⌊b / 50⌋ := Int.floor_le_floor this
  omega

/-! ## Verified properties -/

/-- C9.  Every massing emitted by `generateBuildingForParcel` satisfies
`baseHeight + bodyHeight + roofHeight = height` exactly: `splitVertical`
defines the body as the total minus base and roof, and the stored total is
the adjusted height passed to the split. -/
theorem massing_component_heights_sum (O : MathOracle) (bst : BuildState) (gRng : ℕ)
    (parcel : Parcel) (era : Era) (level : ℕ) :
    ((generateBuildingForParcel O bst gRng parcel era level).2.2).map
        (fun b => b.baseHeight + b.bodyHeight + b.roofHeight) =
      ((generateBuildingForParcel O bst gRng parcel era level).2.2).map (fun b => b.height) := by
  unfold generateBuildingForParcel
  split
  · rfl
  · dsimp only
    split
    · rfl
    · simp only [Option.map_some', Option.some.injEq]
      unfold splitVertical
      dsimp only
      ring

/-- C10.  The inward polygon offset emits exactly one vertex per input
vertex (either displaced or copied), so the setback footprint of a parcel
with at least 3 vertices again has at least 3 vertices and the
`footprint.length < 3` abort branch of `generateBuildingForParcel` is
unreachable for zoned parcels. -/
theorem offsetPolygon_preserves_vertex_count :
    (∀ (O : MathOracle) (vs : List Vec2) (off : ℚ),
      (offsetPolygon O vs off).length = vs.length) ∧
    (∀ (O : MathOracle) (bst : BuildState) (gRng : ℕ) (p : Parcel) (era : Era) (level : ℕ),
      p.zoneType ≠ .noneZ → 3 ≤ p.vertices.length →
      ((generateBuildingForParcel O bst gRng p era level).2.2).isSome = true) := by
  have hlen : ∀ (O : MathOracle) (vs : List Vec2) (off : ℚ),
      (offsetPolygon O vs off).length = vs.length := by
    intro O vs off
    unfold offsetPolygon
    rw [foldl_length_grow]
    · simp
    · intro acc i
      dsimp only
      split <;> simp
  refine ⟨hlen, ?_⟩
  intro O bst gRng p era level hzone hverts
  unfold generateBuildingForParcel
  split
  · exact absurd (by assumption) hzone
  · dsimp only
    split
    · rename_i hlt
      rw [hlen] at hlt
      omega
    · rfl

/-- C10 witness: on the concrete residential parcel the generator indeed
emits a massing. -/
theorem offsetPolygon_preserves_vertex_count_witness :
    testParcel.zoneType ≠ .noneZ ∧ 3 ≤ testParcel.vertices.length ∧
      ((generateBuildingForParcel defaultOracle BuildState.empty 7 testParcel
          .e1890s 1).2.2).isSome = true :=
  ⟨by decide, by decide,
    offsetPolygon_preserves_vertex_count.2 defaultOracle BuildState.empty 7 testParcel
      .e1890s 1 (by decide) (by decide)⟩

/-- C3 counterexample.  In the graph holding node 0 at `(46, 0)` and node
1 at `(62, 0)` (16 m apart, so both were created), `addNode(60, 0)`
returns node 0 at distance 14, although node 1 lies at distance 2 — the
scan returns the first node in grid order within `SNAP_THRESHOLD`, not the
nearest one. -/
theorem addNode_not_nearest :
    (addNode snapTrace2 60 0).2 = 0 ∧
      (jget snapTrace2.nodes 0).map (fun n => n.pos) = some ⟨46, 0⟩ ∧
      (jget snapTrace2.nodes 1).map (fun n => n.pos) = some ⟨62, 0⟩ ∧
      distSq (⟨62, 0⟩ : Vec2) ⟨60, 0⟩ < 225 ∧
      distSq (⟨62, 0⟩ : Vec2) ⟨60, 0⟩ < distSq (⟨46, 0⟩ : Vec2) ⟨60, 0⟩ := by
  decide

/-- C3 amended.  `addNode(p)` returns the id of the *first* node in the
spatial-grid scan order lying strictly within `SNAP_THRESHOLD = 15` of
`p` — an existing node within the threshold, but not necessarily the
nearest; on a well-formed graph the snap fires whenever any node lies
within the threshold, and otherwise a fresh node with empty incidence is
allocated and indexed. -/
theorem addNode_returns_first_in_scan_order :
    (∀ (st : NState) (x y : ℚ) (nid : ℕ), snapCandidate st x y = some nid →
      addNode st x y = (st, nid) ∧
        ∃ node, jget st.nodes nid = some node ∧ distSq node.pos ⟨x, y⟩ < 225) ∧
    (∀ (st : NState) (x y : ℚ), NWellFormed st →
      (∃ kv ∈ st.nodes, distSq kv.2.pos ⟨x, y⟩ < 225) →
      (snapCandidate st x y).isSome = true) ∧
    (∀ (st : NState) (x y : ℚ), snapCandidate st x y = none →
      (addNode st x y).2 = st.nextNodeId ∧
        jget (addNode st x y).1.nodes st.nextNodeId =
          some ⟨st.nextNodeId, ⟨x, y⟩, [], false⟩) := by
  refine ⟨?_, ?_, ?_⟩
  · intro st x y nid h
    refine ⟨by unfold addNode; rw [h], ?_⟩
    unfold snapCandidate at h
    obtain ⟨a, _, hfa⟩ := List.exists_of_findSome?_eq_some h
    revert hfa
    cases hj : jget st.nodes a with
    | none => intro hfa; simp at hfa
    | some node =>
      intro hfa
      by_cases hd : distSq node.pos ⟨x, y⟩ < 225
      · simp only [if_pos hd, Option.some.injEq] at hfa
        exact ⟨node, hfa ▸ hj, hd⟩
      · simp [if_neg hd] at hfa
  · rintro st x y hwf ⟨kv, hkv, hdist⟩
    have hidx := hwf.indexed kv hkv
    cases hbuck : jget st.spatial (gridKey kv.2.pos.x kv.2.pos.y) with
    | none => rw [hbuck] at hidx; simp at hidx
    | some l =>
      rw [hbuck] at hidx
      simp only [Option.getD_some] at hidx
      unfold snapCandidate
      apply List.findSome?_isSome_iff.mpr
      refine ⟨kv.1, ?_, ?_⟩
      · have hdx : |kv.2.pos.x - x| < 50 := by
          have hsq : (x - kv.2.pos.x) * (x - kv.2.pos.x) +
              (y - kv.2.pos.y) * (y - kv.2.pos.y) < 225 := hdist
          have h50 : (kv.2.pos.x - x) < 50 := by nlinarith
          have h50' : -(50 : ℚ) < kv.2.pos.x - x := by nlinarith
          exact abs_lt.mpr ⟨h50', h50⟩
        have hdy : |kv.2.pos.y - y| < 50 := by
          have hsq : (x - kv.2.pos.x) * (x - kv.2.pos.x) +
              (y - kv.2.pos.y) * (y - kv.2.pos.y) < 225 := hdist
          have h50 : (kv.2.pos.y - y) < 50 := by nlinarith
          have h50' : -(50 : ℚ) < kv.2.pos.y - y := by nlinarith
          exact abs_lt.mpr ⟨h50', h50⟩
        have hcx := floor_div50_close hdx
        have hcy := floor_div50_close hdy
        have hone : ((⌈(15 : ℚ) / 50⌉).toNat) = 1 := by decide
        have hmemx : (⌊kv.2.pos.x / 50⌋ - ⌊x / 50⌋) ∈ offsetRange (⌈(15 : ℚ) / 50⌉).toNat := by
          rw [hone]
          rcases hcx with h | h | h <;> rw [h] <;> decide
        have hmemy : (⌊kv.2.pos.y / 50⌋ - ⌊y / 50⌋) ∈ offsetRange (⌈(15 : ℚ) / 50⌉).toNat := by
          rw [hone]
          rcases hcy with h | h | h <;> rw [h] <;> decide
        refine mem_gridGetNearby hmemx hmemy ?_ hidx
        have hkey : ((gridKey x y).1 + (⌊kv.2.pos.x / 50⌋ - ⌊x / 50⌋),
            (gridKey x y).2 + (⌊kv.2.pos.y / 50⌋ - ⌊y / 50⌋)) =
              gridKey kv.2.pos.x kv.2.pos.y := by
          unfold gridKey
          simp only [Prod.mk.injEq]
          exact ⟨by omega, by omega⟩
        rw [hkey]
        exact hbuck
      · have hjk : jget st.nodes kv.1 = some kv.2 := by
          apply jget_eq_some_of_mem_nodup hwf.nodupKeys
          obtain ⟨k1, v1⟩ := kv
          exact hkv
        rw [hjk]
        simp [hdist]
  · intro st x y h
    unfold addNode
    rw [h]
    exact ⟨rfl, jget_jset_self _ _ _⟩

/-- C3 witness: the amended theorem applied to the concrete two-node
trace (snap path, returning the first-in-scan-order node 0) and to the
empty graph (fresh-node path). -/
theorem addNode_returns_first_in_scan_order_witness :
    snapCandidate snapTrace2 60 0 = some 0 ∧ addNode snapTrace2 60 0 = (snapTrace2, 0) ∧
      snapCandidate NState.empty 5 5 = none ∧ (addNode NState.empty 5 5).2 = 0 :=
  ⟨by decide, (addNode_returns_first_in_scan_order.1 snapTrace2 60 0 0 (by decide)).1,
    by decide, (addNode_returns_first_in_scan_order.2.2 NState.empty 5 5 (by decide)).1⟩

/-- C4 counterexample.  `addEdge(0, 0, street, dirt)` on a graph whose
node 0 has no incident edges is *accepted*: it returns edge id 0, stores
an edge whose two endpoint ids are both 0 with cached length 0, and
pushes that edge twice onto the node's incidence list — the claimed
rejection of `a = b` does not exist. -/
theorem addEdge_accepts_self_loop :
    selfLoopResult.2 = some 0 ∧
      (jget selfLoopResult.1.edges 0).map (fun e => (e.nodeA, e.nodeB, e.length)) =
        some (0, 0, 0) ∧
      (jget selfLoopResult.1.nodes 0).map (fun n => (n.edges, n.isIntersection)) =
        some ([0, 0], true) := by
  decide

/-- C4 amended.  `addEdge(a, a, …)` is not rejected: whenever node `a`
exists with an empty incidence list, a self-loop edge with
`nodeA = nodeB = a` is created and pushed twice onto the node's incidence
list (when `a` already has an incident edge, that edge is returned
unchanged instead, because the duplicate-edge scan matches it). -/
theorem addEdge_self_loop_behavior (O : MathOracle) (st : NState) (a : ℕ)
    (cls : RoadClass) (mat : RoadMaterial) (na : RNode)
    (hna : jget st.nodes a = some na) (hedges : na.edges = []) :
    (addEdge O st a a cls mat).2 = some st.nextEdgeId ∧
      (jget (addEdge O st a a cls mat).1.edges st.nextEdgeId).map
          (fun e => (e.nodeA, e.nodeB)) = some (a, a) ∧
      (jget (addEdge O st a a cls mat).1.nodes a).map (fun n => n.edges) =
        some [st.nextEdgeId, st.nextEdgeId] := by
  have hch : checkMinimumAngle O st a a 30 = true := by
    unfold checkMinimumAngle
    rw [hna]
    dsimp only
    rw [hedges]
    rfl
  unfold addEdge
  simp only [hna, hedges, hch, List.findSome?_nil, jget_jset_self, List.nil_append,
    List.length_cons, List.length_nil, Option.map_some', if_true]
  norm_num [jget_jset_self]

/-- C4 witness: the amended theorem applied to the one-node graph. -/
theorem addEdge_self_loop_behavior_witness :
    jget selfLoopState.nodes 0 = some ⟨0, ⟨0, 0⟩, [], false⟩ ∧
      (addEdge defaultOracle selfLoopState 0 0 .avenue .asphalt).2 = some 0 :=
  ⟨by decide,
    (addEdge_self_loop_behavior defaultOracle selfLoopState 0 .avenue .asphalt
      ⟨0, ⟨0, 0⟩, [], false⟩ (by decide) rfl).1⟩

/-- C8 counterexample.  On the concrete residential parcel the stored
floor count is 5 while `max(1, round(bodyHeight / 3))` is 3: the source
computes the floor count from the total height at line 4312, before the
vertical split, not from the body height. -/
theorem floorCount_not_from_bodyHeight :
    massingTrace.2.2.map (fun b => (b.floorCount, max 1 (jsRound (b.bodyHeight / 3)))) =
        some (5, 3) ∧
      massingTrace.2.2.map (fun b => max 1 (jsRound (b.height / 3))) = some 5 ∧
      (5 : ℤ) ≠ 3 := by
  refine ⟨by decide, by decide, by decide⟩

/-- C8 amended.  For *every* emitted massing the stored floor count is
`max(1, round(h / 3))` where `h` is the total height before the
commercial (×1.1) / industrial (×0.7) zone adjustment — recovered exactly
from the stored total by `preAdjustHeight` — and not a function of the
body height; for residential parcels, whose height is not adjusted, `h`
is the stored total itself. -/
theorem floorCount_from_total_height (O : MathOracle) (bst : BuildState) (gRng : ℕ)
    (parcel : Parcel) (era : Era) (level : ℕ) :
    ((generateBuildingForParcel O bst gRng parcel era level).2.2).map (fun b => b.floorCount) =
      ((generateBuildingForParcel O bst gRng parcel era level).2.2).map
        (fun b => max 1 (jsRound (preAdjustHeight b / 3))) := by
  unfold generateBuildingForParcel
  by_cases hz0 : parcel.zoneType = .noneZ
  · rw [if_pos hz0]
    rfl
  · rw [if_neg hz0]
    dsimp only
    split
    · rfl
    · simp only [Option.map_some', Option.some.injEq]
      unfold preAdjustHeight
      dsimp only
      cases hzz : parcel.zoneType with
      | residential => rfl
      | commercial =>
        dsimp only
        rw [show ∀ x : ℚ, x * 11 / 10 * 10 / 11 = x from fun x => by ring]
      | industrial =>
        dsimp only
        rw [show ∀ x : ℚ, x * 7 / 10 * 10 / 7 = x from fun x => by ring]
      | noneZ => exact absurd hzz hz0

/-- C8 witness: the amended theorem applied to the concrete *commercial*
parcel, whose stored height carries the ×1.1 adjustment. -/
theorem floorCount_from_total_height_witness :
    ((generateBuildingForParcel defaultOracle BuildState.empty 7 testParcelC
          .e2010s 1).2.2).map (fun b => b.floorCount) =
      ((generateBuildingForParcel defaultOracle BuildState.empty 7 testParcelC
          .e2010s 1).2.2).map (fun b => max 1 (jsRound (preAdjustHeight b / 3))) :=
  floorCount_from_total_height defaultOracle BuildState.empty 7 testParcelC .e2010s 1

/-- C7 counterexample.  The thin triangle `(0,0)–(100,0)–(0,2)` has area
100 m² (above `MIN_PARCEL_AREA = 50`) and intersects no block (the block
table is empty), yet the standalone paint emits *zero* parcels — every
frontage strip clips below 50 m² — while the virtual block equal to the
paint polygon is created. -/
theorem standalone_zone_can_emit_no_parcels :
    50 < polygonArea thinTriangleReq.polygon ∧
      3 ≤ thinTriangleReq.polygon.length ∧
      BState.empty.blocks = [] ∧
      thinTriangleRes.2.2 = [] ∧
      (jget thinTriangleRes.1.blocks 0).map (fun b => b.vertices) =
        some thinTriangleReq.polygon := by
  refine ⟨by decide, by decide, rfl, by decide, by decide⟩

/-- C7 amended.  When no block intersects the paint polygon and it has at
least 3 vertices, `paintZone` creates a virtual block whose polygon equals
the paint polygon and subdivides it with the skeleton method, and every
emitted parcel references that virtual block's id — but an area above
50 m² does not guarantee that at least one parcel is emitted, because each
clipped strip must individually reach 50 m² and 3 vertices. -/
theorem paintZone_standalone_virtual_block (O : MathOracle) (st : BState) (rng : ℕ)
    (net : NState) (req : ZonePaintRequest)
    (hnone : ∀ kv ∈ st.blocks, polygonsIntersect kv.2.vertices req.polygon = false)
    (hlen : 3 ≤ req.polygon.length) :
    (jget (paintZone O st rng net req).1.blocks st.nextBlockId).map (fun b => b.vertices) =
        some req.polygon ∧
      ∀ p ∈ (paintZone O st rng net req).2.2, p.blockId = st.nextBlockId := by
  have hloop : ∀ (entries : List (ℕ × Block)) (st' : BState) (rng' : ℕ) (acc : List Parcel)
      (found : Bool), (∀ kv ∈ entries, polygonsIntersect kv.2.vertices req.polygon = false) →
      paintLoop O net req entries st' rng' acc found = (st', rng', acc, found) := by
    intro entries
    induction entries with
    | nil => intro st' rng' acc found _; rfl
    | cons kv rest ih =>
      intro st' rng' acc found h
      have hkv := h kv (List.mem_cons_self _ _)
      obtain ⟨k, blk⟩ := kv
      unfold paintLoop
      rw [hkv]
      simp only [Bool.false_eq_true, if_false]
      exact ih st' rng' acc found (fun kv hm => h kv (List.mem_cons_of_mem _ hm))
  have hemit : ∀ (polys : List (List Vec2)) (m : JMap ℕ Parcel) (n : ℕ) (p : Parcel),
      p ∈ (emitStandaloneParcels O req.zoneType req.zoneDensity st.nextBlockId polys m n).2.2 →
      p.blockId = st.nextBlockId := by
    intro polys
    have hgen : ∀ (polys : List (List Vec2)) (acc : JMap ℕ Parcel × ℕ × List Parcel),
        (∀ p ∈ acc.2.2, p.blockId = st.nextBlockId) →
        ∀ p ∈ (polys.foldl
            (fun (acc : JMap ℕ Parcel × ℕ × List Parcel) verts =>
              if verts.length < 3 then acc
              else
                let area := polygonArea verts
                if area < 50 then acc
                else
                  let estimatedFrontage :=
                    if 3 ≤ verts.length then maxEdgeLength O verts else 0
                  let p : Parcel :=
                    ⟨acc.2.1, verts, req.zoneType, req.zoneDensity, area, estimatedFrontage,
                      -1, false, polygonCentroid verts, st.nextBlockId⟩
                  (jset acc.1 p.id p, acc.2.1 + 1, acc.2.2 ++ [p]))
            acc).2.2,
          p.blockId = st.nextBlockId := by
      intro polys
      induction polys with
      | nil => intro acc h; exact h
      | cons verts rest ih =>
        intro acc h
        apply ih
        dsimp only
        split
        · exact h
        · split
          · exact h
          · intro p hp
            rcases List.mem_append.mp hp with hp | hp
            · exact h p hp
            · rcases List.mem_singleton.mp hp with rfl
              rfl
    intro m n p hp
    exact hgen polys (m, n, []) (by intro p hp; simp at hp) p hp
  unfold paintZone
  rw [hloop st.blocks st rng [] false hnone]
  dsimp only
  rw [if_pos ⟨by decide, hlen⟩]
  dsimp only
  constructor
  · rw [jget_jset_self]
    rfl
  · intro p hp
    rcases List.mem_append.mp hp with hp | hp
    · simp at hp
    · exact hemit _ _ _ p hp

/-- C7 witness: the amended theorem applied to the skeleton setup paint
on the empty manager (the virtual block 0 holds the painted square). -/
theorem paintZone_standalone_virtual_block_witness :
    (jget (paintZone defaultOracle BState.empty 12345 NState.empty setupReq).1.blocks
        0).map (fun b => b.vertices) = some setupReq.polygon :=
  (paintZone_standalone_virtual_block defaultOracle BState.empty 12345 NState.empty setupReq
    (by intro kv h; simp [BState.empty] at h) (by decide)).1

set_option maxRecDepth 100000 in
/-- C6 counterexample.  Painting the square with the voronoi method twice
in immediate succession yields two parcel sets of equal count whose
polygons differ at every index: the subdivider's seed jitter consumes the
shared mulberry32 stream, so the second call starts deeper in the
stream. -/
theorem paintZone_voronoi_not_idempotent :
    paintVor1.2.2.length = 2 ∧ paintVor2.2.2.length = 2 ∧
      ¬ paintVor2.2.2.map (fun p => p.vertices) = paintVor1.2.2.map (fun p => p.vertices) := by
  refine ⟨by decide, by decide, by decide⟩

/-- C5 counterexample.  After three `addSegment` calls — two sharing the
endpoint `(100,0)` and a third crossing the first mid-span at `(50,0)` —
intersection record 0 at `(100,0)` still lists segment 0, but the split
re-used id 0 for the half `(0,0)–(50,0)`, whose endpoints are 100 m and
50 m away: the claimed invariant fails in a reachable state. -/
theorem intersection_record_goes_stale :
    (jget weldTrace3.intersections 0).map (fun r => (r.position, r.connectedSegments)) =
        some (⟨100, 0⟩, [0, 1]) ∧
      (jget weldTrace3.segments 0).map (fun s => (s.start, s.stop)) =
        some (⟨0, 0⟩, ⟨50, 0⟩) ∧
      4 < distSq (⟨100, 0⟩ : Vec2) ⟨0, 0⟩ ∧ 4 < distSq (⟨100, 0⟩ : Vec2) ⟨50, 0⟩ := by
  refine ⟨by decide, by decide, by decide, by decide⟩

/-- C5 amended.  The proximity property holds only at refresh time and
relative to the probed point: whenever `createOrUpdateIntersection`
creates or rewrites a record, every segment id it lists designates an
entry of the *current* segment table with an endpoint strictly within
`INTERSECTION_EPS = 2` of the probed point; later `addSegment` calls can
split a listed segment and strand the record (the staleness exhibited by
the counterexample). -/
theorem createOrUpdateIntersection_connected_near (O : MathOracle) (st : WState) (p : Vec2)
    (i : ℕ) (r : WInter)
    (hrec : jget (createOrUpdateIntersection O st p).intersections i = some r)
    (hold : ¬ jget st.intersections i = some r) :
    ∀ sid ∈ r.connectedSegments, ∃ s, (sid, s) ∈ st.segments ∧
      (distSq p s.start < 4 ∨ distSq p s.stop < 4) := by
  have haux : ∀ (segs : List (ℚ × WSeg)) (acc : List ℚ × ℚ),
      (∀ kv ∈ segs, kv ∈ st.segments) →
      (∀ sid ∈ acc.1, ∃ s, (sid, s) ∈ st.segments ∧
        (distSq p s.start < 4 ∨ distSq p s.stop < 4)) →
      ∀ sid ∈ (segs.foldl
          (fun acc kv =>
            if distSq p kv.2.start < 4 ∨ distSq p kv.2.stop < 4 then
              (acc.1 ++ [kv.1], max acc.2 kv.2.width)
            else acc)
          acc).1, ∃ s, (sid, s) ∈ st.segments ∧
        (distSq p s.start < 4 ∨ distSq p s.stop < 4) := by
    intro segs
    induction segs with
    | nil => intro acc _ hacc; exact hacc
    | cons kv rest ih =>
      intro acc hsub hacc
      rw [List.foldl_cons]
      refine ih _ (fun kv' hm => hsub kv' (List.mem_cons_of_mem _ hm)) ?_
      by_cases hcond : distSq p kv.2.start < 4 ∨ distSq p kv.2.stop < 4
      · rw [if_pos hcond]
        intro sid hs
        rcases List.mem_append.mp hs with hs | hs
        · exact hacc sid hs
        · rcases List.mem_singleton.mp hs with rfl
          refine ⟨kv.2, ?_, hcond⟩
          have hkv : (kv.1, kv.2) = kv := by
            obtain ⟨k1, v1⟩ := kv
            rfl
          rw [hkv]
          exact hsub kv (List.mem_cons_self _ _)
      · rw [if_neg hcond]
        exact hacc
  have hconn : ∀ sid ∈ (connectedAt st.segments p).1, ∃ s, (sid, s) ∈ st.segments ∧
      (distSq p s.start < 4 ∨ distSq p s.stop < 4) := by
    intro sid hsid
    exact haux st.segments ([], 0) (fun kv h => h) (by intro sid hs; simp at hs) sid hsid
  revert hrec
  unfold createOrUpdateIntersection
  by_cases hlt : (connectedAt st.segments p).1.length < 2
  · rw [if_pos hlt]
    intro hrec
    exact absurd hrec hold
  · rw [if_neg hlt]
    dsimp only
    cases hfind : st.intersections.find? (fun kv => decide (distSq kv.2.position p < 4)) with
    | some kex =>
      dsimp only
      by_cases hik : kex.1 = i
      · subst hik
        rw [jget_jset_self]
        intro hrec
        cases hrec
        intro sid hsid
        exact hconn sid hsid
      · rw [jget_jset_ne _ _ _ _ hik]
        intro hrec
        exact absurd hrec hold
    | none =>
      dsimp only
      by_cases hik : st.nextIntersectionId = i
      · subst hik
        rw [jget_jset_self]
        intro hrec
        cases hrec
        intro sid hsid
        exact hconn sid hsid
      · rw [jget_jset_ne _ _ _ _ hik]
        intro hrec
        exact absurd hrec hold

/-- C5 witness: the amended theorem applied to the welder trace extended
by segment 5 at `(100,0)`: the refreshed record 0 lists segment 5, which
indeed has an endpoint within 2 of the probed point. -/
theorem createOrUpdateIntersection_connected_near_witness :
    ∃ s, ((5 : ℚ), s) ∈ weldWitnessState.segments ∧
      (distSq ⟨100, 0⟩ s.start < 4 ∨ distSq ⟨100, 0⟩ s.stop < 4) :=
  createOrUpdateIntersection_connected_near defaultOracle weldWitnessState ⟨100, 0⟩ 0
    weldWitnessRec (by decide) (by decide) 5 (by decide)

/-- The point returned by the welder's line intersection lies on the
first segment at a parameter within `[0, 1]`. -/
theorem lineIntersectionW_some {p1 p2 p3 p4 X : Vec2}
    (h : lineIntersectionW p1 p2 p3 p4 = some X) :
    ∃ t : ℚ, 0 ≤ t ∧ t ≤ 1 ∧
      X = ⟨p1.x + t * (p2.x - p1.x), p1.y + t * (p2.y - p1.y)⟩ := by
  unfold lineIntersectionW at h
  dsimp only at h
  split at h
  · simp at h
  · split at h
    · rename_i hcond
      cases h
      exact ⟨_, hcond.1, hcond.2.1, rfl⟩
    · simp at h

/-- The welder's line intersection fails on coincident first-segment
endpoints, so a successful intersection forces a nondegenerate direction
vector. -/
theorem lineIntersectionW_nondegenerate {p1 p2 p3 p4 X : Vec2}
    (h : lineIntersectionW p1 p2 p3 p4 = some X) :
    0 < (p2.x - p1.x) * (p2.x - p1.x) + (p2.y - p1.y) * (p2.y - p1.y) := by
  unfold lineIntersectionW at h
  dsimp only at h
  split at h
  · simp at h
  · rename_i hden
    by_contra hL
    push_neg at hL
    have hx : p2.x - p1.x = 0 := by nlinarith [sq_nonneg (p2.x - p1.x), sq_nonneg (p2.y - p1.y)]
    have hy : p2.y - p1.y = 0 := by nlinarith [sq_nonneg (p2.x - p1.x), sq_nonneg (p2.y - p1.y)]
    apply hden
    have : (p1.x - p2.x) * (p3.y - p4.y) - (p1.y - p2.y) * (p3.x - p4.x) = 0 := by
      have hx' : p1.x - p2.x = 0 := by linarith
      have hy' : p1.y - p2.y = 0 := by linarith
      rw [hx', hy']
      ring
    rw [this]
    simp

/-- Squared distance from the base point to a parameterized point of the
segment. -/
theorem distSq_param (a b : Vec2) (t : ℚ) :
    distSq a ⟨a.x + t * (b.x - a.x), a.y + t * (b.y - a.y)⟩ =
      t * t * ((b.x - a.x) * (b.x - a.x) + (b.y - a.y) * (b.y - a.y)) := by
  unfold distSq
  dsimp only
  ring

/-- Membership characterization of the mid-span crossing scan. -/
theorem findIntersections_mem (st : WState) (S : WSeg) (X : Vec2) (sid : ℚ) :
    (X, sid) ∈ findIntersections st S ↔
      ∃ E, (sid, E) ∈ st.segments ∧
        lineIntersectionW S.start S.stop E.start E.stop = some X ∧
        isMiddleIntersection X S E := by
  have haux : ∀ (entries : List (ℚ × WSeg)) (acc : List (Vec2 × ℚ)),
      ((X, sid) ∈ entries.foldl
          (fun acc kv =>
            match lineIntersectionW S.start S.stop kv.2.start kv.2.stop with
            | some Y => if isMiddleIntersection Y S kv.2 then acc ++ [(Y, kv.1)] else acc
            | none => acc)
          acc ↔
        (X, sid) ∈ acc ∨ ∃ E, (sid, E) ∈ entries ∧
          lineIntersectionW S.start S.stop E.start E.stop = some X ∧
          isMiddleIntersection X S E) := by
    intro entries
    induction entries with
    | nil => intro acc; simp
    | cons kv rest ih =>
      obtain ⟨k1, v1⟩ := kv
      intro acc
      rw [List.foldl_cons]
      dsimp only
      cases hline : lineIntersectionW S.start S.stop v1.start v1.stop with
      | none =>
        rw [ih]
        constructor
        · rintro (h | ⟨E, hm, hl, hmid⟩)
          · exact Or.inl h
          · exact Or.inr ⟨E, List.mem_cons_of_mem _ hm, hl, hmid⟩
        · rintro (h | ⟨E, hm, hl, hmid⟩)
          · exact Or.inl h
          · rcases List.mem_cons.mp hm with hm | hm
            · injection hm with h1 h2
              subst h1
              subst h2
              rw [hline] at hl
              cases hl
            · exact Or.inr ⟨E, hm, hl, hmid⟩
      | some Y =>
        dsimp only
        by_cases hmid : isMiddleIntersection Y S v1
        · rw [if_pos hmid, ih]
          constructor
          · rintro (h | ⟨E, hm, hl, hmid'⟩)
            · rcases List.mem_append.mp h with h | h
              · exact Or.inl h
              · rcases List.mem_singleton.mp h with h
                injection h with h1 h2
                subst h1
                subst h2
                exact Or.inr ⟨v1, List.mem_cons_self _ _, hline, hmid⟩
            · exact Or.inr ⟨E, List.mem_cons_of_mem _ hm, hl, hmid'⟩
          · rintro (h | ⟨E, hm, hl, hmid'⟩)
            · exact Or.inl (List.mem_append_left _ h)
            · rcases List.mem_cons.mp hm with hm | hm
              · injection hm with h1 h2
                subst h1
                subst h2
                rw [hline] at hl
                cases hl
                exact Or.inl (List.mem_append_right _ (List.mem_singleton.mpr rfl))
              · exact Or.inr ⟨E, hm, hl, hmid'⟩
        · rw [if_neg hmid, ih]
          constructor
          · rintro (h | ⟨E, hm, hl, hmid'⟩)
            · exact Or.inl h
            · exact Or.inr ⟨E, List.mem_cons_of_mem _ hm, hl, hmid'⟩
          · rintro (h | ⟨E, hm, hl, hmid'⟩)
            · exact Or.inl h
            · rcases List.mem_cons.mp hm with hm | hm
              · injection hm with h1 h2
                subst h1
                subst h2
                rw [hline] at hl
                cases hl
                exact absurd hmid' hmid
              · exact Or.inr ⟨E, hm, hl, hmid'⟩
  unfold findIntersections
  rw [haux]
  simp

/-- The split fold produces the chain of consecutive sub-segments through
its visited points. -/
theorem splitStep_chain (S : WSeg) :
    ∀ (l : List (Vec2 × ℚ)) (st0 : WState) (segs0 : List WSeg) (cur0 : Vec2) (idx0 : ℕ),
      (l.foldl (splitStep S) (st0, segs0, cur0, idx0)).2.1.map (fun s => (s.start, s.stop)) ++
          [((l.foldl (splitStep S) (st0, segs0, cur0, idx0)).2.2.1, S.stop)] =
        segs0.map (fun s => (s.start, s.stop)) ++ chainFrom cur0 S.stop (l.map (·.1)) := by
  intro l
  induction l with
  | nil =>
    intro st0 segs0 cur0 idx0
    simp [chainFrom]
  | cons pt rest ih =>
    intro st0 segs0 cur0 idx0
    rw [List.foldl_cons]
    have h1 : splitStep S (st0, segs0, cur0, idx0) pt =
        (splitExistingSegment st0 pt.2 pt.1,
          segs0 ++ [⟨S.id + (idx0 : ℚ) / 1000, cur0, pt.1, S.width, S.cls⟩],
          pt.1, idx0 + 1) := rfl
    rw [h1, ih]
    simp [chainFrom]

/-- C1.  The mid-span acceptance and splitting of `addSegment`: a line
intersection point is accepted exactly when it lies strictly farther than
`INTERSECTION_EPS = 2` from all four endpoints of the new and the
existing segment; the new segment is split into the chain of consecutive
sub-segments through the accepted points sorted ascending by distance
from its start — which is ascending order of the parameter along the
segment, as the points are exactly the parameterized points of a
monotone, `[0, 1]`-bounded parameter list. -/
theorem addSegment_mid_span_split (st : WState) (S : WSeg) :
    (∀ (X : Vec2) (sid : ℚ), (X, sid) ∈ findIntersections st S ↔
        ∃ E, (sid, E) ∈ st.segments ∧
          lineIntersectionW S.start S.stop E.start E.stop = some X ∧
          isMiddleIntersection X S E) ∧
    ((splitSegmentAtPoints st S (findIntersections st S)).2.map (fun s => (s.start, s.stop)) =
        chainFrom S.start S.stop
          ((List.insertionSort (byDistFrom S.start) (findIntersections st S)).map (·.1))) ∧
    (List.insertionSort (byDistFrom S.start) (findIntersections st S)).Perm
      (findIntersections st S) ∧
    (∃ ts : List ℚ, ts.Sorted (· ≤ ·) ∧ (∀ t ∈ ts, 0 ≤ t ∧ t ≤ 1) ∧
      (List.insertionSort (byDistFrom S.start) (findIntersections st S)).map (·.1) =
        ts.map (fun t => (⟨S.start.x + t * (S.stop.x - S.start.x),
          S.start.y + t * (S.stop.y - S.start.y)⟩ : Vec2))) := by
  refine ⟨findIntersections_mem st S, ?_, List.perm_insertionSort _ _, ?_⟩
  · unfold splitSegmentAtPoints
    by_cases hpts : findIntersections st S = []
    · rw [if_pos hpts, hpts]
      simp [chainFrom]
    · rw [if_neg hpts]
      dsimp only
      have hchain := splitStep_chain S
        (List.insertionSort (byDistFrom S.start) (findIntersections st S)) st [] S.start 0
      simp only [List.map_nil, List.nil_append] at hchain
      rw [List.map_append]
      dsimp only [List.map_cons, List.map_nil]
      exact hchain
  · have hmem : ∀ pr ∈ List.insertionSort (byDistFrom S.start) (findIntersections st S),
        ∃ t : ℚ, 0 ≤ t ∧ t ≤ 1 ∧
          pr.1 = (⟨S.start.x + t * (S.stop.x - S.start.x),
            S.start.y + t * (S.stop.y - S.start.y)⟩ : Vec2) ∧
          0 < (S.stop.x - S.start.x) * (S.stop.x - S.start.x) +
            (S.stop.y - S.start.y) * (S.stop.y - S.start.y) := by
      intro pr hpr
      have hpr' : pr ∈ findIntersections st S := (List.mem_insertionSort _).mp hpr
      obtain ⟨X, sid⟩ := pr
      obtain ⟨E, _, hl, _⟩ := (findIntersections_mem st S X sid).mp hpr'
      obtain ⟨t, ht0, ht1, hX⟩ := lineIntersectionW_some hl
      exact ⟨t, ht0, ht1, hX, lineIntersectionW_nondegenerate hl⟩
    have hsorted : (List.insertionSort (byDistFrom S.start)
        (findIntersections st S)).Sorted (byDistFrom S.start) :=
      List.sorted_insertionSort _ _
    have key : ∀ (l : List (Vec2 × ℚ)),
        l.Sorted (byDistFrom S.start) →
        (∀ pr ∈ l, ∃ t : ℚ, 0 ≤ t ∧ t ≤ 1 ∧
          pr.1 = (⟨S.start.x + t * (S.stop.x - S.start.x),
            S.start.y + t * (S.stop.y - S.start.y)⟩ : Vec2) ∧
          0 < (S.stop.x - S.start.x) * (S.stop.x - S.start.x) +
            (S.stop.y - S.start.y) * (S.stop.y - S.start.y)) →
        ∃ ts : List ℚ, ts.Sorted (· ≤ ·) ∧ (∀ t ∈ ts, 0 ≤ t ∧ t ≤ 1) ∧
          l.map (·.1) = ts.map (fun t => (⟨S.start.x + t * (S.stop.x - S.start.x),
            S.start.y + t * (S.stop.y - S.start.y)⟩ : Vec2)) := by
      intro l
      induction l with
      | nil => exact fun _ _ => ⟨[], by simp, by simp, by simp⟩
      | cons pr rest ih =>
        intro hs hmem'
        obtain ⟨t, ht0, ht1, hXt, hL⟩ := hmem' pr (List.mem_cons_self _ _)
        obtain ⟨ts, hts_sorted, hts_bounds, hts_map⟩ :=
          ih hs.of_cons (fun q hq => hmem' q (List.mem_cons_of_mem _ hq))
        refine ⟨t :: ts, ?_, ?_, ?_⟩
        · rw [List.sorted_cons]
          refine ⟨?_, hts_sorted⟩
          intro t' ht'
          have hpt : (⟨S.start.x + t' * (S.stop.x - S.start.x),
              S.start.y + t' * (S.stop.y - S.start.y)⟩ : Vec2) ∈
                ts.map (fun t => (⟨S.start.x + t * (S.stop.x - S.start.x),
                  S.start.y + t * (S.stop.y - S.start.y)⟩ : Vec2)) :=
            List.mem_map_of_mem _ ht'
          rw [← hts_map] at hpt
          obtain ⟨q, hq, hq1⟩ := List.mem_map.mp hpt
          have hle : byDistFrom S.start pr q := (List.sorted_cons.mp hs).1 q hq
          unfold byDistFrom at hle
          rw [hXt, hq1] at hle
          rw [distSq_param, distSq_param] at hle
          have ht'0 := (hts_bounds t' ht').1
          have h2 : t * t ≤ t' * t' := le_of_mul_le_mul_right hle hL
          nlinarith [h2, ht0, ht'0]
        · intro t' ht'
          rcases List.mem_cons.mp ht' with h | h
          · subst h
            exact ⟨ht0, ht1⟩
          · exact hts_bounds t' h
        · simp only [List.map_cons, hXt, hts_map]
    exact key _ hsorted hmem

/-- A false `List.any` means the predicate fails on every member. -/
theorem any_eq_false_all {α : Type} (p : α → Bool) (l : List α) (h : l.any p = false) :
    ∀ x ∈ l, p x = false := by
  intro x hx
  cases hpx : p x with
  | false => rfl
  | true =>
    have hx' := List.any_eq_true.mpr ⟨x, hx, hpx⟩
    rw [h] at hx'
    simp at hx'

/-- `bestFrontageIndex` reads only the block's vertex loop and road-edge
ids. -/
theorem bestFrontageIndex_fields (net : NState) (blk : Block) :
    bestFrontageIndex net blk =
      bestFrontageIndex net ⟨0, blk.vertices, [], [], 0, 0, blk.roadEdges⟩ := by
  cases blk
  rfl

/-- A block with no road edges receives frontage index 0. -/
theorem bestFrontageIndex_no_roads (net : NState) (blk : Block)
    (h : blk.roadEdges = []) : bestFrontageIndex net blk = 0 := by
  have haux : ∀ (f : ℕ × Option ℚ → ℕ → ℕ × Option ℚ), (∀ a i, f a i = a) →
      ∀ (l : List ℕ) (a : ℕ × Option ℚ), l.foldl f a = a := by
    intro f hf l
    induction l with
    | nil => intro a; rfl
    | cons x xs ih =>
      intro a
      rw [List.foldl_cons, hf]
      exact ih a
  unfold bestFrontageIndex
  rw [h]
  dsimp only
  exact congrArg Prod.fst (haux _ (fun a i => rfl) (List.range blk.vertices.length) (0, none))

/-- The block-path parcel emitter records exactly the accepted polygons,
in order, each with its shoelace area. -/
theorem emitBlockParcels_va (O : MathOracle) (zt : ZoneType) (zd : ZoneDensity)
    (blkVerts : List Vec2) (roadEdges : List ℕ) (blockId : ℕ)
    (polys : List (List Vec2)) (parcels : JMap ℕ Parcel) (nextPid : ℕ) :
    (emitBlockParcels O zt zd blkVerts roadEdges blockId polys parcels nextPid).2.2.map
        (fun p => (p.vertices, p.area)) =
      (polys.filter keepParcelPoly).map (fun v => (v, polygonArea v)) := by
  have haux : ∀ (polys : List (List Vec2)) (acc : JMap ℕ Parcel × ℕ × List Parcel),
      (polys.foldl
          (fun (acc : JMap ℕ Parcel × ℕ × List Parcel) verts =>
            if verts.length < 3 then acc
            else
              if polygonArea verts < 50 then acc
              else
                (jset acc.1 acc.2.1
                  ⟨acc.2.1, verts, zt, zd, polygonArea verts,
                    if (frontageScan O blkVerts roadEdges verts).1 = 0 ∧ 3 ≤ verts.length then
                      maxEdgeLength O verts
                    else (frontageScan O blkVerts roadEdges verts).1,
                    (frontageScan O blkVerts roadEdges verts).2.1,
                    1 < (frontageScan O blkVerts roadEdges verts).2.2.length,
                    polygonCentroid verts, blockId⟩,
                  acc.2.1 + 1,
                  acc.2.2 ++
                    [⟨acc.2.1, verts, zt, zd, polygonArea verts,
                      if (frontageScan O blkVerts roadEdges verts).1 = 0 ∧ 3 ≤ verts.length then
                        maxEdgeLength O verts
                      else (frontageScan O blkVerts roadEdges verts).1,
                      (frontageScan O blkVerts roadEdges verts).2.1,
                      1 < (frontageScan O blkVerts roadEdges verts).2.2.length,
                      polygonCentroid verts, blockId⟩]))
          acc).2.2.map (fun p => (p.vertices, p.area)) =
        acc.2.2.map (fun p => (p.vertices, p.area)) ++
          (polys.filter keepParcelPoly).map (fun v => (v, polygonArea v)) := by
    intro polys
    induction polys with
    | nil => intro acc; simp
    | cons verts rest ih =>
      intro acc
      rw [List.foldl_cons]
      by_cases h1 : verts.length < 3
      · rw [if_pos h1, ih]
        have hk : keepParcelPoly verts = false := by
          simp [keepParcelPoly, h1]
        simp [List.filter_cons, hk]
      · rw [if_neg h1]
        by_cases h2 : polygonArea verts < 50
        · rw [if_pos h2, ih]
          have hk : keepParcelPoly verts = false := by
            simp [keepParcelPoly, h2]
          simp [List.filter_cons, hk]
        · rw [if_neg h2, ih]
          have hk : keepParcelPoly verts = true := by
            simp [keepParcelPoly, h1, h2]
          simp [List.filter_cons, hk, List.map_append]
  exact (haux polys (parcels, nextPid, [])).trans (by simp)

/-- The standalone parcel emitter records exactly the accepted polygons,
in order, each with its shoelace area. -/
theorem emitStandaloneParcels_va (O : MathOracle) (zt : ZoneType) (zd : ZoneDensity)
    (blockId : ℕ) (polys : List (List Vec2)) (parcels : JMap ℕ Parcel) (nextPid : ℕ) :
    (emitStandaloneParcels O zt zd blockId polys parcels nextPid).2.2.map
        (fun p => (p.vertices, p.area)) =
      (polys.filter keepParcelPoly).map (fun v => (v, polygonArea v)) := by
  have haux : ∀ (polys : List (List Vec2)) (acc : JMap ℕ Parcel × ℕ × List Parcel),
      (polys.foldl
          (fun (acc : JMap ℕ Parcel × ℕ × List Parcel) verts =>
            if verts.length < 3 then acc
            else
              if polygonArea verts < 50 then acc
              else
                (jset acc.1 acc.2.1
                  ⟨acc.2.1, verts, zt, zd, polygonArea verts,
                    if 3 ≤ verts.length then maxEdgeLength O verts else 0, -1, false,
                    polygonCentroid verts, blockId⟩,
                  acc.2.1 + 1,
                  acc.2.2 ++
                    [⟨acc.2.1, verts, zt, zd, polygonArea verts,
                      if 3 ≤ verts.length then maxEdgeLength O verts else 0, -1, false,
                      polygonCentroid verts, blockId⟩]))
          acc).2.2.map (fun p => (p.vertices, p.area)) =
        acc.2.2.map (fun p => (p.vertices, p.area)) ++
          (polys.filter keepParcelPoly).map (fun v => (v, polygonArea v)) := by
    intro polys
    induction polys with
    | nil => intro acc; simp
    | cons verts rest ih =>
      intro acc
      rw [List.foldl_cons]
      by_cases h1 : verts.length < 3
      · rw [if_pos h1, ih]
        have hk : keepParcelPoly verts = false := by
          simp [keepParcelPoly, h1]
        simp [List.filter_cons, hk]
      · rw [if_neg h1]
        by_cases h2 : polygonArea verts < 50
        · rw [if_pos h2, ih]
          have hk : keepParcelPoly verts = false := by
            simp [keepParcelPoly, h2]
          simp [List.filter_cons, hk]
        · rw [if_neg h2, ih]
          have hk : keepParcelPoly verts = true := by
            simp [keepParcelPoly, h1, h2]
          simp [List.filter_cons, hk, List.map_append]
  exact (haux polys (parcels, nextPid, [])).trans (by simp)

/-- The block loop's found flag is the disjunction of the starting flag
with the intersection tests of the visited blocks. -/
theorem paintLoop_found (O : MathOracle) (net : NState) (req : ZonePaintRequest) :
    ∀ (l : List (ℕ × Block)) (st : BState) (rng : ℕ) (acc : List Parcel) (found : Bool),
      (paintLoop O net req l st rng acc found).2.2.2 =
        (found || l.any (fun pr => polygonsIntersect pr.2.vertices req.polygon)) := by
  intro l
  induction l with
  | nil =>
    intro st rng acc found
    simp [paintLoop]
  | cons pr rest ih =>
    intro st rng acc found
    obtain ⟨bid, blk⟩ := pr
    unfold paintLoop
    cases hint : polygonsIntersect blk.vertices req.polygon with
    | false =>
      simp only [Bool.false_eq_true, if_false]
      rw [ih]
      simp [List.any_cons, hint]
    | true =>
      rw [if_pos rfl]
      dsimp only
      rw [ih]
      simp [List.any_cons, hint]

/-- The block loop is the identity when no snapshot entry intersects the
paint polygon. -/
theorem paintLoop_id_of_no_intersect (O : MathOracle) (net : NState)
    (req : ZonePaintRequest) :
    ∀ (l : List (ℕ × Block)) (st : BState) (rng : ℕ) (acc : List Parcel) (found : Bool),
      (∀ kv ∈ l, polygonsIntersect kv.2.vertices req.polygon = false) →
      paintLoop O net req l st rng acc found = (st, rng, acc, found) := by
  intro l
  induction l with
  | nil => intro st rng acc found _; rfl
  | cons kv rest ih =>
    intro st rng acc found h
    have hkv := h kv (List.mem_cons_self _ _)
    obtain ⟨k, blk⟩ := kv
    unfold paintLoop
    rw [hkv]
    simp only [Bool.false_eq_true, if_false]
    exact ih st rng acc found (fun kv hm => h kv (List.mem_cons_of_mem _ hm))

/-- Under the skeleton method, the block loop appends, per intersecting
block in snapshot order, exactly the accepted skeleton strips with their
areas. -/
theorem paintLoop_out_skel (O : MathOracle) (net : NState) (req : ZonePaintRequest)
    (hm : req.subdivisionMethod.getD .skeleton = .skeleton) :
    ∀ (l : List (ℕ × Block)) (st : BState) (rng : ℕ) (acc : List Parcel) (found : Bool),
      (paintLoop O net req l st rng acc found).2.2.1.map (fun p => (p.vertices, p.area)) =
        acc.map (fun p => (p.vertices, p.area)) ++
          (l.map (fun pr => (skelBlockEmitP O net req pr.2.vertices pr.2.roadEdges).map
            (fun v => (v, polygonArea v)))).flatten := by
  intro l
  induction l with
  | nil =>
    intro st rng acc found
    simp [paintLoop]
  | cons pr rest ih =>
    intro st rng acc found
    obtain ⟨bid, blk⟩ := pr
    unfold paintLoop
    cases hint : polygonsIntersect blk.vertices req.polygon with
    | false =>
      simp only [Bool.false_eq_true, if_false]
      rw [ih]
      have hb : skelBlockEmitP O net req blk.vertices blk.roadEdges = [] := by
        unfold skelBlockEmitP
        rw [hint]
        simp
      rw [List.map_cons, List.flatten_cons]
      dsimp only
      rw [hb]
      simp
    | true =>
      rw [if_pos rfl]
      dsimp only
      rw [hm]
      dsimp only
      rw [ih, List.map_append, emitBlockParcels_va]
      have hb : skelBlockEmitP O net req blk.vertices blk.roadEdges =
          (subdivideWithSkeleton O blk.vertices req.zoneType req.zoneDensity
            (bestFrontageIndex net blk)).filter keepParcelPoly := by
        unfold skelBlockEmitP
        rw [hint, if_pos rfl, ← bestFrontageIndex_fields net blk]
      rw [List.map_cons, List.flatten_cons]
      dsimp only
      rw [hb]
      simp [List.append_assoc]

/-- Updating a block entry whose projected data already agrees with every
stored entry at that key leaves the projected block table unchanged. -/
theorem jset_bproj : ∀ (m : JMap ℕ Block) (k : ℕ) (v : Block),
    (∃ q ∈ m.map bproj, q.1 = k) →
    (∀ q ∈ m.map bproj, q.1 = k → q.2 = (v.vertices, v.roadEdges)) →
    (jset m k v).map bproj = m.map bproj := by
  intro m
  induction m with
  | nil =>
    intro k v hex _
    simp at hex
  | cons kv rest ih =>
    intro k v hex hall
    obtain ⟨k0, v0⟩ := kv
    by_cases hk : k0 = k
    · unfold jset
      rw [if_pos hk]
      rw [List.map_cons, List.map_cons]
      have h0 := hall (bproj (k0, v0))
        (List.mem_map_of_mem _ (List.mem_cons_self _ _)) hk
      unfold bproj at h0 ⊢
      dsimp only at h0 ⊢
      rw [← h0]
    · unfold jset
      rw [if_neg hk]
      rw [List.map_cons, List.map_cons]
      congr 1
      apply ih
      · obtain ⟨q, hq, hqk⟩ := hex
        rw [List.map_cons] at hq
        rcases List.mem_cons.mp hq with h | h
        · subst h
          exact absurd hqk hk
        · exact ⟨q, h, hqk⟩
      · intro q hq hqk
        apply hall
        · rw [List.map_cons]
          exact List.mem_cons_of_mem _ hq
        · exact hqk

/-- The block loop never changes the projected block table: keys, vertex
loops and road-edge lists survive every repaint. -/
theorem paintLoop_blocks (O : MathOracle) (net : NState) (req : ZonePaintRequest)
    (B : List (ℕ × List Vec2 × List ℕ)) :
    ∀ (l : List (ℕ × Block)) (st : BState) (rng : ℕ) (acc : List Parcel) (found : Bool),
      st.blocks.map bproj = B →
      (∀ pr ∈ l, (∃ q ∈ B, q.1 = pr.1) ∧
        (∀ q ∈ B, q.1 = pr.1 → q.2 = (pr.2.vertices, pr.2.roadEdges))) →
      (paintLoop O net req l st rng acc found).1.blocks.map bproj = B := by
  intro l
  induction l with
  | nil =>
    intro st rng acc found hB _
    exact hB
  | cons pr rest ih =>
    intro st rng acc found hB hH
    obtain ⟨bid, blk⟩ := pr
    unfold paintLoop
    cases hint : polygonsIntersect blk.vertices req.polygon with
    | false =>
      simp only [Bool.false_eq_true, if_false]
      exact ih st rng acc found hB (fun pr hpr => hH pr (List.mem_cons_of_mem _ hpr))
    | true =>
      rw [if_pos rfl]
      dsimp only
      have hhead := hH (bid, blk) (List.mem_cons_self _ _)
      refine ih _ _ _ _ ?_ (fun pr hpr => hH pr (List.mem_cons_of_mem _ hpr))
      dsimp only
      refine (jset_bproj _ _ _ ?_ ?_).trans hB
      · rw [hB]
        exact hhead.1
      · rw [hB]
        intro q hq hqk
        exact hhead.2 q hq hqk

/-- Intersection scan transfers to the projected block table. -/
theorem map_bproj_any (req : ZonePaintRequest) (l : List (ℕ × Block)) :
    l.any (fun pr => polygonsIntersect pr.2.vertices req.polygon) =
      (l.map bproj).any (fun q => polygonsIntersect q.2.1 req.polygon) := by
  induction l with
  | nil => rfl
  | cons x xs ih => simp [List.any_cons, ih, bproj]

/-- Skeleton emission transfers to the projected block table. -/
theorem map_bproj_emit (O : MathOracle) (net : NState) (req : ZonePaintRequest)
    (l : List (ℕ × Block)) :
    l.map (fun pr => (skelBlockEmitP O net req pr.2.vertices pr.2.roadEdges).map
        (fun v => (v, polygonArea v))) =
      (l.map bproj).map (fun q => (skelBlockEmitP O net req q.2.1 q.2.2).map
        (fun v => (v, polygonArea v))) := by
  rw [List.map_map]
  rfl

/-- A projected block table with no entry intersecting the paint polygon
emits nothing. -/
theorem flatten_emitP_nil (O : MathOracle) (net : NState) (req : ZonePaintRequest) :
    ∀ (pl : List (ℕ × List Vec2 × List ℕ)),
      (∀ q ∈ pl, polygonsIntersect q.2.1 req.polygon = false) →
      (pl.map (fun q => (skelBlockEmitP O net req q.2.1 q.2.2).map
        (fun v => (v, polygonArea v)))).flatten = [] := by
  intro pl
  induction pl with
  | nil => intro _; rfl
  | cons q rest ih =>
    intro h
    rw [List.map_cons, List.flatten_cons]
    have hq := h q (List.mem_cons_self _ _)
    have hb : skelBlockEmitP O net req q.2.1 q.2.2 = [] := by
      unfold skelBlockEmitP
      rw [hq]
      simp
    rw [hb]
    simp only [List.map_nil, List.nil_append]
    exact ih (fun q hq' => h q (List.mem_cons_of_mem _ hq'))

/-- The parcel records a skeleton-method `paintZone` emits: per
intersecting block the accepted strips, else (for a polygon with at least
3 vertices) the accepted strips of the virtual block at frontage 0. -/
theorem paintZone_out_skel (O : MathOracle) (net : NState) (req : ZonePaintRequest)
    (hm : req.subdivisionMethod.getD .skeleton = .skeleton) (st : BState) (rng : ℕ) :
    (paintZone O st rng net req).2.2.map (fun p => (p.vertices, p.area)) =
      if st.blocks.any (fun pr => polygonsIntersect pr.2.vertices req.polygon) then
        (st.blocks.map (fun pr => (skelBlockEmitP O net req pr.2.vertices
          pr.2.roadEdges).map (fun v => (v, polygonArea v)))).flatten
      else if 3 ≤ req.polygon.length then
        ((subdivideWithSkeleton O req.polygon req.zoneType req.zoneDensity 0).filter
          keepParcelPoly).map (fun v => (v, polygonArea v))
      else [] := by
  unfold paintZone
  dsimp only
  cases hany : st.blocks.any (fun pr => polygonsIntersect pr.2.vertices req.polygon) with
  | true =>
    have hf : (paintLoop O net req st.blocks st rng [] false).2.2.2 = true := by
      rw [paintLoop_found, hany]
      rfl
    rw [if_neg (fun h => h.1 hf), if_pos rfl]
    dsimp only
    rw [paintLoop_out_skel O net req hm]
    simp
  | false =>
    have hid := paintLoop_id_of_no_intersect O net req st.blocks st rng [] false
      (any_eq_false_all _ _ hany)
    rw [hid]
    dsimp only
    by_cases hlen : 3 ≤ req.polygon.length
    · rw [if_pos ⟨Bool.false_ne_true, hlen⟩]
      dsimp only
      simp only [Bool.false_eq_true, if_false, if_pos hlen]
      rw [List.nil_append, emitStandaloneParcels_va]
    · rw [if_neg (fun h => hlen h.2)]
      dsimp only
      simp only [Bool.false_eq_true, if_false, if_neg hlen]
      rfl

/-- What `paintZone` does to the projected block table: nothing when a
block intersected; otherwise it appends the virtual block (fresh key,
paint polygon, no road edges) when the polygon has at least 3 vertices. -/
theorem paintZone_blocks (O : MathOracle) (net : NState) (req : ZonePaintRequest)
    (st : BState) (rng : ℕ)
    (hnodup : (st.blocks.map (fun pr => pr.1)).Nodup)
    (hfresh : ∀ pr ∈ st.blocks, pr.1 < st.nextBlockId) :
    (paintZone O st rng net req).1.blocks.map bproj =
      if st.blocks.any (fun pr => polygonsIntersect pr.2.vertices req.polygon) then
        st.blocks.map bproj
      else if 3 ≤ req.polygon.length then
        st.blocks.map bproj ++ [(st.nextBlockId, req.polygon, ([] : List ℕ))]
      else st.blocks.map bproj := by
  have hHbase : ∀ pr ∈ st.blocks, (∃ q ∈ st.blocks.map bproj, q.1 = pr.1) ∧
      (∀ q ∈ st.blocks.map bproj, q.1 = pr.1 → q.2 = (pr.2.vertices, pr.2.roadEdges)) := by
    intro pr hpr
    refine ⟨⟨bproj pr, List.mem_map_of_mem _ hpr, rfl⟩, ?_⟩
    intro q hq hqk
    obtain ⟨e, he, rfl⟩ := List.mem_map.mp hq
    have heq : e = pr := List.inj_on_of_nodup_map hnodup he hpr hqk
    rw [heq]
    rfl
  unfold paintZone
  dsimp only
  cases hany : st.blocks.any (fun pr => polygonsIntersect pr.2.vertices req.polygon) with
  | true =>
    have hf : (paintLoop O net req st.blocks st rng [] false).2.2.2 = true := by
      rw [paintLoop_found, hany]
      rfl
    rw [if_neg (fun h => h.1 hf), if_pos rfl]
    dsimp only
    exact paintLoop_blocks O net req (st.blocks.map bproj) st.blocks st rng [] false rfl
      hHbase
  | false =>
    have hid := paintLoop_id_of_no_intersect O net req st.blocks st rng [] false
      (any_eq_false_all _ _ hany)
    rw [hid]
    dsimp only
    by_cases hlen : 3 ≤ req.polygon.length
    · rw [if_pos ⟨Bool.false_ne_true, hlen⟩]
      dsimp only
      have hfresh' : st.nextBlockId ∉ st.blocks.map (fun pr => pr.1) := by
        intro hmem
        obtain ⟨e, he, hek⟩ := List.mem_map.mp hmem
        have hlt := hfresh e he
        rw [hek] at hlt
        exact lt_irrefl _ hlt
      rw [jset_eq_append_of_not_mem _ hfresh', List.map_append]
      simp only [Bool.false_eq_true, if_false, if_pos hlen]
      congr 1
    · rw [if_neg (fun h => hlen h.2)]
      dsimp only
      simp only [Bool.false_eq_true, if_false, if_neg hlen]

/-- C6 amended.  The paint-twice idempotence holds for the skeleton
subdivision method (the default when no method is requested): the second
of two immediately consecutive identical `paintZone` calls emits parcels
with the same polygon at each index, the same count, and the same total
area as the first — the skeleton subdivider consumes no randomness and
the loop preserves every block's vertex loop and road edges.  The voronoi
method falsifies the unqualified claim (see the counterexample): its seed
jitter consumes the shared mulberry32 stream. -/
theorem paintZone_skeleton_idempotent (O : MathOracle) (st : BState) (rng : ℕ)
    (net : NState) (req : ZonePaintRequest)
    (hm : req.subdivisionMethod.getD .skeleton = .skeleton)
    (hnodup : (st.blocks.map (fun pr => pr.1)).Nodup)
    (hfresh : ∀ pr ∈ st.blocks, pr.1 < st.nextBlockId) :
    (paintZone O (paintZone O st rng net req).1 (paintZone O st rng net req).2.1 net
        req).2.2.map (fun p => p.vertices) =
      (paintZone O st rng net req).2.2.map (fun p => p.vertices) ∧
    (paintZone O (paintZone O st rng net req).1 (paintZone O st rng net req).2.1 net
        req).2.2.length = (paintZone O st rng net req).2.2.length ∧
    ((paintZone O (paintZone O st rng net req).1 (paintZone O st rng net req).2.1 net
        req).2.2.map (fun p => p.area)).sum =
      ((paintZone O st rng net req).2.2.map (fun p => p.area)).sum := by
  have hva : (paintZone O (paintZone O st rng net req).1 (paintZone O st rng net req).2.1
      net req).2.2.map (fun p => (p.vertices, p.area)) =
      (paintZone O st rng net req).2.2.map (fun p => (p.vertices, p.area)) := by
    have hout1 := paintZone_out_skel O net req hm st rng
    have hblocks := paintZone_blocks O net req st rng hnodup hfresh
    have hout2 := paintZone_out_skel O net req hm (paintZone O st rng net req).1
      (paintZone O st rng net req).2.1
    cases hany : st.blocks.any (fun pr => polygonsIntersect pr.2.vertices req.polygon) with
    | true =>
      rw [hany, if_pos rfl] at hout1 hblocks
      have hany2 : (paintZone O st rng net req).1.blocks.any
          (fun pr => polygonsIntersect pr.2.vertices req.polygon) = true := by
        rw [map_bproj_any req, hblocks, ← map_bproj_any req, hany]
      rw [hany2, if_pos rfl] at hout2
      rw [map_bproj_emit O net req, hblocks, ← map_bproj_emit O net req] at hout2
      rw [hout2, hout1]
    | false =>
      rw [hany] at hout1 hblocks
      simp only [Bool.false_eq_true, if_false] at hout1 hblocks
      by_cases hlen : 3 ≤ req.polygon.length
      · rw [if_pos hlen] at hout1 hblocks
        have hany2 : (paintZone O st rng net req).1.blocks.any
            (fun pr => polygonsIntersect pr.2.vertices req.polygon) =
              polygonsIntersect req.polygon req.polygon := by
          rw [map_bproj_any req, hblocks, List.any_append, ← map_bproj_any req, hany]
          simp
        cases hPP : polygonsIntersect req.polygon req.polygon with
        | true =>
          rw [hPP] at hany2
          rw [hany2, if_pos rfl] at hout2
          rw [map_bproj_emit O net req, hblocks, List.map_append,
            List.flatten_append] at hout2
          have hcond : ∀ q ∈ st.blocks.map bproj,
              polygonsIntersect q.2.1 req.polygon = false :=
            any_eq_false_all _ _ (by rw [← map_bproj_any req]; exact hany)
          rw [flatten_emitP_nil O net req _ hcond, List.nil_append] at hout2
          simp only [List.map_cons, List.map_nil, List.flatten_cons, List.flatten_nil,
            List.append_nil] at hout2
          have hemit : skelBlockEmitP O net req req.polygon [] =
              (subdivideWithSkeleton O req.polygon req.zoneType req.zoneDensity 0).filter
                keepParcelPoly := by
            unfold skelBlockEmitP
            rw [hPP, if_pos rfl, bestFrontageIndex_no_roads net _ rfl]
          rw [hemit] at hout2
          rw [hout2, hout1]
        | false =>
          rw [hPP] at hany2
          rw [hany2] at hout2
          simp only [Bool.false_eq_true, if_false] at hout2
          rw [if_pos hlen] at hout2
          rw [hout2, hout1]
      · rw [if_neg hlen] at hout1 hblocks
        have hany2 : (paintZone O st rng net req).1.blocks.any
            (fun pr => polygonsIntersect pr.2.vertices req.polygon) = false := by
          rw [map_bproj_any req, hblocks, ← map_bproj_any req, hany]
        rw [hany2] at hout2
        simp only [Bool.false_eq_true, if_false] at hout2
        rw [if_neg hlen] at hout2
        rw [hout2, hout1]
  refine ⟨?_, ?_, ?_⟩
  · have h := congrArg (List.map (fun q : List Vec2 × ℚ => q.1)) hva
    rw [List.map_map, List.map_map] at h
    exact h
  · have h := congrArg List.length hva
    rw [List.length_map, List.length_map] at h
    exact h
  · have h := congrArg (fun l : List (List Vec2 × ℚ) => (l.map (fun q => q.2)).sum) hva
    dsimp only at h
    rw [List.map_map, List.map_map] at h
    exact h

/-- C6 witness: the skeleton-method idempotence applied to the setup paint
of the 45 m square on the empty manager. -/
theorem paintZone_skeleton_idempotent_witness :
    setupReq.subdivisionMethod.getD .skeleton = .skeleton ∧
    (BState.empty.blocks.map (fun pr => pr.1)).Nodup ∧
    (paintZone defaultOracle (paintZone defaultOracle BState.empty 12345 NState.empty
        setupReq).1 (paintZone defaultOracle BState.empty 12345 NState.empty setupReq).2.1
        NState.empty setupReq).2.2.map (fun p => p.vertices) =
      (paintZone defaultOracle BState.empty 12345 NState.empty setupReq).2.2.map
        (fun p => p.vertices) :=
  ⟨rfl, by decide, (paintZone_skeleton_idempotent defaultOracle BState.empty 12345
    NState.empty setupReq rfl (by decide) (by decide)).1⟩

/-- C2.  Two-run determinism of the worker: over the full handled message
alphabet — boot, shuffle-seed, set-era, paint-road, get-roads, get-stats,
paint-zone, get-parcels, get-blocks, clear-zones,
generate-building-for-zone, generate-buildings, get-buildings,
get-building-mesh, set-building-lod and regenerate-with-zone, meshes and
typed-array payloads included — the reply sequence is a pure function of
the seed, the era and the ordered request sequence (for any fixed
generation and math oracles): two runs on identical inputs produce
identical replies, with no dependence on wall-clock time or other hidden
input, since the embedded message loop threads all state (the shared RNG,
the road graph, the welder, the block, parcel, building and mesh-cache
tables) explicitly. -/
theorem workerRun_deterministic (G : GenOracle) (O : MathOracle)
    (seed₁ seed₂ : ℕ) (era₁ era₂ : Era) (reqs₁ reqs₂ : List Request)
    (hseed : seed₁ = seed₂) (hera : era₁ = era₂) (hreqs : reqs₁ = reqs₂) :
    workerRun G O seed₁ era₁ reqs₁ = workerRun G O seed₂ era₂ reqs₂ := by
  rw [hseed, hera, hreqs]

/-- C2 witness: two runs over the same seed 7, era 1950s and a request
sequence exercising every handled message type agree. -/
theorem workerRun_deterministic_witness :
    (7 : ℕ) = 7 ∧ Era.e1950s = Era.e1950s ∧
      workerRun trivialGen defaultOracle 7 .e1950s
          [.boot 7 none, .shuffleSeed 9, .setEra .e2010s,
            .paintRoad ⟨0, 0⟩ ⟨100, 0⟩ .street, .getRoads, .getStats,
            .paintZoneReq [⟨0, 0⟩, ⟨45, 0⟩, ⟨45, 45⟩, ⟨0, 45⟩] .residential .low
              (some .skeleton),
            .getParcels, .getBlocks, .generateBuildingForZone 5 ⟨15, 15⟩ 0,
            .generateBuildingsReq none, .getBuildings (some 2),
            .getBuildingMeshReq 0 none, .setBuildingLod 0,
            .regenerateWithZone none none, .clearZones] =
        workerRun trivialGen defaultOracle 7 .e1950s
          [.boot 7 none, .shuffleSeed 9, .setEra .e2010s,
            .paintRoad ⟨0, 0⟩ ⟨100, 0⟩ .street, .getRoads, .getStats,
            .paintZoneReq [⟨0, 0⟩, ⟨45, 0⟩, ⟨45, 45⟩, ⟨0, 45⟩] .residential .low
              (some .skeleton),
            .getParcels, .getBlocks, .generateBuildingForZone 5 ⟨15, 15⟩ 0,
            .generateBuildingsReq none, .getBuildings (some 2),
            .getBuildingMeshReq 0 none, .setBuildingLod 0,
            .regenerateWithZone none none, .clearZones] :=
  ⟨rfl, rfl, workerRun_deterministic trivialGen defaultOracle 7 7 .e1950s .e1950s
    _ _ rfl rfl rfl⟩

end WebCity
